import Mathlib

/-!
pbnn-ModelZoo: model handle protocol and the `cnntest` helpers.

Shallow embedding of
* `include/pb_sdk/pb_infer_api.h` and `include/pb_sdk/qm_runtime.h` (data model and
  the declared control operations of `ModelHandler`), and
* `pb_infer/cnntest.cpp` (option handling, layout conversion, byte reinterpretation,
  similarity metrics).

The bodies of `ModelHandler`'s member functions and of `save_kv_cache` / `load_kv_cache` /
`abort_request` are only declared in the headers; the session state machine below is
therefore written from the design document (sections 3, 4, 5 and 7) and every such
definition says so in its doc comment.
-/

namespace PbnnModelZoo

/-! ## Data model (`pb_infer_api.h`) -/

/-- Enumeration `ModelType` of `pb_infer_api.h`: its enumerators that name a model. The
marker enumerator `FIRST_CNN_MODEL`, which shares its value with `RESNET50`, is the
constant declared below. -/
inductive ModelType
  | MINICPM | DEEPSEEK | PHI4 | MINICPMV1B | QWEN | PALIGEMMA | PALIGEMMA_V1_1
  | QWEN_2_5VL_7B | QWEN_2_5VL_3B | QWEN_2_5VL_7B_DA04 | QWEN_2_5OMNI_7B_DA04
  | INTERNVL3_8B | RESNET50 | REPVGG | YOLOV8S
  deriving DecidableEq, Repr

/-- The value of the enumerator `FIRST_CNN_MODEL`. -/
def FIRST_CNN_MODEL : Int := 1000

/-- Integer value of every `ModelType` enumerator (unnumbered enumerators continue
from their predecessor, `RESNET50 = FIRST_CNN_MODEL`). -/
def ModelType.toInt : ModelType → Int
  | .MINICPM => 1
  | .DEEPSEEK => 2
  | .PHI4 => 3
  | .MINICPMV1B => 4
  | .QWEN => 5
  | .PALIGEMMA => 6
  | .PALIGEMMA_V1_1 => 7
  | .QWEN_2_5VL_7B => 8
  | .QWEN_2_5VL_3B => 9
  | .QWEN_2_5VL_7B_DA04 => 10
  | .QWEN_2_5OMNI_7B_DA04 => 11
  | .INTERNVL3_8B => 12
  | .RESNET50 => FIRST_CNN_MODEL
  | .REPVGG => FIRST_CNN_MODEL + 1
  | .YOLOV8S => FIRST_CNN_MODEL + 2

/-- All enumerators of `ModelType`, in declaration order. -/
def ModelType.all : List ModelType :=
  [.MINICPM, .DEEPSEEK, .PHI4, .MINICPMV1B, .QWEN, .PALIGEMMA, .PALIGEMMA_V1_1,
   .QWEN_2_5VL_7B, .QWEN_2_5VL_3B, .QWEN_2_5VL_7B_DA04, .QWEN_2_5OMNI_7B_DA04,
   .INTERNVL3_8B, .RESNET50, .REPVGG, .YOLOV8S]

/-- Enumeration `ErrCode` of `pb_infer_api.h` (`FAILED = -1`, `SUCCESS = 0`, then
consecutive values). -/
inductive ErrCode
  | FAILED | SUCCESS | TIMEOUT | INVALID_MODEL | INIT_VOCAB_ERROR
  | INIT_EMBEDDING_TABLE_ERROR | TOKENIZE_ERROR | DETOKENIZE_ERROR
  | PRE_ATTN_PREFILL_ERROR | PRE_ATTN_DECODE_ERROR | ATTN_ERROR
  | POST_ATTN_PREFILL_ERROR | POST_ATTN_DECODE_ERROR | LM_HEAD_ERROR
  deriving DecidableEq, Repr

/-- Struct `FunctionCall`. -/
structure FunctionCall where
  name : String
  arguments : String
  deriving DecidableEq, Repr

/-- Struct `ToolCall`. -/
structure ToolCall where
  id : String
  type : String
  function : FunctionCall
  deriving DecidableEq, Repr

/-- Struct `ContentPart`; `pixel_data` holds float16 words. -/
structure ContentPart where
  type : String
  text : String
  image_url : String
  input_audio : String
  video : List String
  pixel_data : Option (List Nat)
  deriving DecidableEq, Repr

/-- Struct `Message`. -/
structure Message where
  role : String
  content : List ContentPart
  tool_calls : List ToolCall
  deriving DecidableEq, Repr

/-- Struct `ChatCompletionsRequest`. The `float` sampling fields (`temperature`, `top_p`,
the penalties, `fps`, `imu`) and `response_format` are carried by the wire encoding
only and play no part in the protocol; they are left out of the embedding. -/
structure ChatCompletionsRequest where
  messages : List Message
  tools : List String
  model : String
  max_completion_tokens : Option Int
  seed : Option Int
  stream : Bool
  top_k : Int
  meta_top_k : Int
  ignore_eos : Bool
  no_cpu_npu_parallel : Bool
  no_prefix_cache : Bool
  data_type : String
  deriving DecidableEq, Repr

/-- Struct `Usage`. -/
structure Usage where
  completion_tokens : Int
  prompt_tokens : Int
  total_tokens : Int
  deriving DecidableEq, Repr

/-- Struct `ChatCompletionChoice` (the anonymous `message` member is flattened). -/
structure ChatCompletionChoice where
  finish_reason : String
  index : Int
  role : String
  content : Option String
  tool_calls : List ToolCall
  deriving DecidableEq, Repr

/-- Struct `ChatCompletionObject` (without the `double` timing record `metric`). -/
structure ChatCompletionObject where
  choices : List ChatCompletionChoice
  created : Int
  model : String
  system_fingerprint : String
  usage : Usage
  id : String
  deriving DecidableEq, Repr

/-- Struct `ChatCompletionChunkChoice` (the anonymous `delta` member is flattened into
`content` and `role`). -/
structure ChatCompletionChunkChoice where
  finish_reason : Option String
  index : Int
  content : Option String
  role : Option String
  deriving DecidableEq, Repr

/-- Struct `ChatCompletionChunkObject` (without `metric`). -/
structure ChatCompletionChunkObject where
  choices : List ChatCompletionChunkChoice
  created : Int
  model : String
  system_fingerprint : String
  usage : Usage
  id : String
  deriving DecidableEq, Repr

/-- Struct `PrefixCache`: per-layer key and value tensors as flat lists of float16 words,
and the token ids they belong to. -/
structure PrefixCache where
  k_cache : List (List Nat)
  v_cache : List (List Nat)
  token_ids : List Int
  deriving DecidableEq, Repr

/-- Struct `CnnChatData`: raw bytes, shape and element type name. -/
structure CnnChatData where
  data : List Nat
  data_shape : List Int
  data_type : String
  deriving DecidableEq, Repr

/-- Struct `CnnChatCompletions`. -/
structure CnnChatCompletions where
  case_name : String
  data_info : List CnnChatData
  deriving DecidableEq, Repr

/-! ## Session protocol (design document, sections 3 to 5 and 7)

`qm_runtime.h` declares `ModelHandler` with `init`, `input`, `execute`, `output`,
`is_connected`, and `pb_infer_api.h` declares `abort_request`, `save_kv_cache`,
`load_kv_cache`, `terminate_model`; none of their bodies is in the repository. -/

/-- Modelled from the spec: the lifecycle states of a Session (section 4.1); the body of
`ModelHandler` that would define them is missing. -/
inductive State
  | Uninitialized | Connecting | Ready | Loaded | Executing | Disconnected | Terminated
  deriving DecidableEq, Repr

/-- Modelled from the spec: the Request tagged union of section 3 (a chat request or a
batched tensor request), matching the two `ModelHandler::input` overloads. -/
inductive Request
  | chat (r : ChatCompletionsRequest)
  | batch (r : CnnChatCompletions)
  deriving DecidableEq, Repr

/-- Modelled from the spec: the Result tagged union of section 3: a full chat object, an
ordered chunk sequence, or a batched tensor result. -/
inductive Result
  | chat (r : ChatCompletionObject)
  | chunks (cs : List ChatCompletionChunkObject)
  | batch (r : CnnChatCompletions)
  deriving DecidableEq, Repr

/-- Modelled from the spec: the decoded frames the receive path can see (section 4.2);
request-direction tags never arrive at the client and are collected in `other`. -/
inductive Frame
  | responseFull (r : Result)
  | responseChunk (c : ChatCompletionChunkObject)
  | error (e : ErrCode)
  | cacheSaveResponse (c : PrefixCache)
  | ack
  | other
  deriving DecidableEq, Repr

/-- Modelled from the spec: what `Channel.receive` hands to the Session (section 4.3): a
decoded frame, bytes that do not decode, or the loss of the connection. -/
inductive Recv
  | frame (f : Frame)
  | undecodable
  | disconnect
  deriving DecidableEq, Repr

/-- One key or value vector of one token in one layer: `width` float16 words. -/
abbrev Row (width : Nat) : Type := { r : List Nat // r.length = width }

/-- Modelled from the spec: one resident token of the engine (section 4.5): its id and,
for each of the model's `layers` layers, its key vector and its value vector. -/
structure ResidentToken (layers width : Nat) where
  id : Int
  keys : { l : List (Row width) // l.length = layers }
  values : { l : List (Row width) // l.length = layers }

/-- Modelled from the spec: the engine's resident key/value state that `save` reads
(section 4.5): the number of layers of the model, the number of float16 words of a key
or value vector, and the resident tokens, oldest first. -/
structure KvStore where
  layers : Nat
  width : Nat
  tokens : List (ResidentToken layers width)

/-- Modelled from the spec: the Session record of section 3 (lifecycle state, model
identifier, context-length limit, channel handle, pending-request buffer,
last-decoded-result slot, connectivity flag), together with the streaming flag recorded
by `input`, whether a request has been issued since `init` (section 4.5, `load`),
whether cancellation has been signalled, and the chunks pushed to the caller's sink for
the current request. The private members of `ModelHandler` in `qm_runtime.h` are the
same data: `m_client_fd` (channel), `model_type`, `m_request` (pending), `m_stream`,
`m_connected`, and `m_have_output` with the three response members (result). -/
structure Session where
  state : State
  model : Option Int
  ctx_len : Int
  channel : Option Int
  pending : Option Request
  result : Option Result
  connected : Bool
  stream : Bool
  issued : Bool
  abort_sent : Bool
  delivered : List ChatCompletionChunkObject
  deriving DecidableEq, Repr

/-- Modelled from the spec: a freshly created, empty Session (section 3, lifecycle). -/
def Session.empty : Session :=
  { state := .Uninitialized, model := none, ctx_len := 0, channel := none,
    pending := none, result := none, connected := false, stream := false,
    issued := false, abort_sent := false, delivered := [] }

/-- Modelled from the spec: what a control call hands back: nothing (accepted `input`,
`abort`, `load`), an `ErrCode` (`init`, `execute`, a rejected cache transfer), a Result, a
PrefixCache, the state error, or the channel's disconnect error. The state error is the
answer to every call made in a state that does not permit it (section 8); it is found
locally, before any network activity (section 7), so that a Disconnected Session also
refuses such a call at once, without touching the dead channel. -/
inductive Reply
  | done
  | code (e : ErrCode)
  | result (r : Result)
  | cache (c : PrefixCache)
  | stateError
  | disconnectError
  deriving DecidableEq, Repr

/-- Modelled from the spec: the control operations of sections 4.1 and 4.5, each with
the answer of the outside world that the call would observe: for `init` the channel
handle obtained by the handshake (`none` when the handshake times out), for `execute`
whether the send succeeded and what the blocking receive returns, for `save` the
engine's key/value state (`none` when the channel is lost). -/
inductive Op
  | init (model : Int) (path : String) (ctx_len : Int) (handshake : Option Int)
  | input (request : Request) (streaming : Bool)
  | execute (sent : Bool) (reply : Recv)
  | output
  | abort
  | save (token_count : Nat) (engine : Option KvStore)
  | load (cache : PrefixCache)

/-- Modelled from the spec: `init` accepts the model identifiers of `ModelType`
(`INVALID_MODEL` if the model id is unrecognized). -/
def recognized (model : Int) : Bool :=
  ModelType.all.any (fun m => m.toInt == model)

/-- Modelled from the spec: a chunk is terminal when a choice of it carries a finish
reason (section 4.4). -/
def isTerminal (c : ChatCompletionChunkObject) : Bool :=
  c.choices.any (fun ch => ch.finish_reason.isSome)

/-- The last `n` elements of a list. -/
def lastN {α : Type} (n : Nat) (xs : List α) : List α :=
  xs.drop (xs.length - n)

/-- The key vector of a resident token in layer `l`. -/
def ResidentToken.key {layers width : Nat} (t : ResidentToken layers width)
    (l : Fin layers) : List Nat :=
  (t.keys.1.get (l.cast t.keys.2.symm)).1

/-- The value vector of a resident token in layer `l`. -/
def ResidentToken.value {layers width : Nat} (t : ResidentToken layers width)
    (l : Fin layers) : List Nat :=
  (t.values.1.get (l.cast t.values.2.symm)).1

/-- Modelled from the spec: the blob `save(token_count)` requests from the engine: for
every layer the key tensor and the value tensor of the last `token_count` tokens (their
vectors one after the other, oldest token first), and the ids of these tokens
(section 4.5). -/
def KvStore.suffix (e : KvStore) (token_count : Nat) : PrefixCache :=
  { k_cache := (List.finRange e.layers).map
      (fun l => (lastN token_count e.tokens).flatMap (fun t => t.key l)),
    v_cache := (List.finRange e.layers).map
      (fun l => (lastN token_count e.tokens).flatMap (fun t => t.value l)),
    token_ids := (lastN token_count e.tokens).map (fun t => t.id) }

/-- Modelled from the spec: `ModelHandler::init(model, path, context_length)`
(section 4.1), valid only from Uninitialized or Disconnected. An unrecognized model id is
answered `INVALID_MODEL` before the channel is opened, a handshake that does not
complete is answered `TIMEOUT` and leaves the Session Disconnected, and success stores
model and context length and enters Ready. -/
def ModelHandler.init (s : Session) (model : Int) (_path : String) (ctx_len : Int)
    (handshake : Option Int) : Reply × Session :=
  match s.state with
  | .Uninitialized | .Disconnected =>
    if recognized model then
      match handshake with
      | some fd =>
        (.code .SUCCESS,
          { s with
            state := .Ready, model := some model, ctx_len := ctx_len, channel := some fd,
            pending := none, result := none, connected := true, stream := false,
            issued := false, abort_sent := false })
      | none =>
        (.code .TIMEOUT,
          { s with state := .Disconnected, connected := false, channel := none })
    else (.code .INVALID_MODEL, s)
  | _ => (.stateError, s)

/-- Modelled from the spec: `ModelHandler::input(request, streaming)` (section 4.1),
valid only from Ready. It is rejected with a state error while a request is loaded or a
Result is still unconsumed (section 3); otherwise the request is buffered, the streaming
flag recorded (the batch overload has none) and the Session becomes Loaded. -/
def ModelHandler.input (s : Session) (request : Request) (streaming : Bool) :
    Reply × Session :=
  match s.state with
  | .Ready =>
    if s.pending.isSome || s.result.isSome then (.stateError, s)
    else
      (.done,
        { s with
          state := .Loaded, pending := some request, issued := true,
          stream := (match request with
            | .chat _ => streaming
            | .batch _ => false) })
  | _ => (.stateError, s)

/-- Modelled from the spec: `ModelHandler::execute()` (section 4.1), valid only from
Loaded. A failed send loses the channel. A streaming request returns as soon as the
request is sent and leaves the rest to the receive path. A non-streaming request blocks
for one terminal frame: a full response becomes the Result, the failing stage of an error
frame is returned verbatim, a chunk or any other frame (an error frame that names no
failure included) is a protocol error mapped to `FAILED`, and a lost connection moves
the Session to Disconnected. -/
def ModelHandler.execute (s : Session) (sent : Bool) (reply : Recv) : Reply × Session :=
  match s.state with
  | .Loaded =>
    if !sent then
      (.disconnectError, { s with state := .Disconnected, connected := false })
    else if s.stream then
      (.code .SUCCESS, { s with state := .Executing, abort_sent := false, delivered := [] })
    else
      match reply with
      | .frame (.responseFull r) =>
        (.code .SUCCESS,
          { s with state := .Ready, result := some r, abort_sent := false, delivered := [] })
      | .frame (.error e) =>
        (.code (if e = .SUCCESS then .FAILED else e), { s with state := .Ready })
      | .frame _ => (.code .FAILED, { s with state := .Ready })
      | .undecodable => (.code .FAILED, { s with state := .Ready })
      | .disconnect =>
        (.disconnectError, { s with state := .Disconnected, connected := false })
  | _ => (.stateError, s)

/-- Modelled from the spec: `ModelHandler::output()` (section 4.1): once the Session is
back in Ready it hands out the stored Result and empties the slot and the request
buffer; with no Result stored it is a state error. -/
def ModelHandler.output (s : Session) : Reply × Session :=
  match s.state with
  | .Ready =>
    match s.result with
    | some r =>
      (.result r,
        { s with state := .Ready, result := none, pending := none, stream := false })
    | none => (.stateError, s)
  | _ => (.stateError, s)

/-- Modelled from the spec: `abort_request()` (section 4.1), valid from Executing: it
records that cancellation was signalled and returns; it reads nothing from the
channel. -/
def abort_request (s : Session) : Reply × Session :=
  match s.state with
  | .Executing => (.done, { s with abort_sent := true })
  | _ => (.stateError, s)

/-- Modelled from the spec: `save_kv_cache(token_count)` (section 4.5), valid only in Ready
with an active model: fails with `INVALID_MODEL` if `token_count` exceeds the resident
tokens, and otherwise returns the requested suffix of the engine's state. A token count
is a natural number (the declaration takes `int len`; the design document gives no
meaning to a negative count). -/
def save_kv_cache (s : Session) (token_count : Nat) (engine : Option KvStore) :
    Reply × Session :=
  match s.state with
  | .Ready =>
    if s.model.isNone then (.stateError, s)
    else
      match engine with
      | none => (.disconnectError, { s with state := .Disconnected, connected := false })
      | some e =>
        if token_count > e.tokens.length then (.code .INVALID_MODEL, s)
        else (.cache (e.suffix token_count), s)
  | _ => (.stateError, s)

/-- Modelled from the spec: `load_kv_cache(PrefixCache)` (section 4.5), valid only in
Ready before any `input`: a state error once a request has been issued since `init`
(section 7), and a cache with more token ids than the context length is rejected. -/
def load_kv_cache (s : Session) (cache : PrefixCache) : Reply × Session :=
  match s.state with
  | .Ready =>
    if s.issued then (.stateError, s)
    else if (cache.token_ids.length : Int) > s.ctx_len then (.code .FAILED, s)
    else (.done, s)
  | _ => (.stateError, s)

/-- Modelled from the spec: one control call on a Session. -/
def step (s : Session) : Op → Reply × Session
  | .init model path ctx_len handshake => ModelHandler.init s model path ctx_len handshake
  | .input request streaming => ModelHandler.input s request streaming
  | .execute sent reply => ModelHandler.execute s sent reply
  | .output => ModelHandler.output s
  | .abort => abort_request s
  | .save token_count engine => save_kv_cache s token_count engine
  | .load cache => load_kv_cache s cache

/-- Modelled from the spec: the background receive path of a streaming request
(sections 4.4 and 5). It reads the channel only while the Session is Executing a
streaming request: a chunk is pushed to the sink in arrival order, the terminal chunk
makes the chunk sequence the Result and returns the Session to Ready, an error or
unexpected frame ends the request without a Result, and a lost connection moves the
Session to Disconnected. -/
def receive (s : Session) (r : Recv) : Session :=
  if s.state = .Executing ∧ s.stream = true then
    match r with
    | .frame (.responseChunk c) =>
      if isTerminal c then
        { s with
          state := .Ready, delivered := s.delivered ++ [c],
          result := some (.chunks (s.delivered ++ [c])) }
      else { s with delivered := s.delivered ++ [c] }
    | .frame _ => { s with state := .Ready }
    | .undecodable => { s with state := .Ready }
    | .disconnect => { s with state := .Disconnected, connected := false }
  else s

/-- Modelled from the spec: explicit termination (`terminate_model`): releases the
channel and enters the absorbing Terminated state (section 3, lifecycle). -/
def terminate_model (s : Session) : Session :=
  { s with state := .Terminated, channel := none, connected := false }

/-- Modelled from the spec: `ModelHandler::is_connected()` returns the cached connectivity
flag. -/
def ModelHandler.is_connected (s : Session) : Bool := s.connected

/-- Modelled from the spec: what can happen to a Session: a control call, a frame reaching
the receive path, or termination. -/
inductive Event
  | call (op : Op)
  | recv (r : Recv)
  | terminate

/-- Modelled from the spec: the Session after one event. -/
def Session.after (s : Session) : Event → Session
  | .call op => (step s op).2
  | .recv r => receive s r
  | .terminate => terminate_model s

/-- Modelled from the spec: the Session after a sequence of events, oldest first. -/
def Session.run (s : Session) (es : List Event) : Session :=
  es.foldl Session.after s

/-- An event that is an `execute` call. -/
def Event.isExecute : Event → Bool
  | .call (.execute _ _) => true
  | _ => false

/-- The arrival of the given chunks, in order, at the receive path. -/
def chunkEvents (cs : List ChatCompletionChunkObject) : List Event :=
  cs.map (fun c => Event.recv (.frame (.responseChunk c)))

/-- The chat request of scenario A: one user message "Hello". -/
def helloRequest : ChatCompletionsRequest :=
  { messages :=
      [{ role := "user",
         content := [{ type := "text", text := "Hello", image_url := "", input_audio := "",
                       video := [], pixel_data := none }],
         tool_calls := [] }],
    tools := [], model := "qwen", max_completion_tokens := none, seed := none,
    stream := false, top_k := 50, meta_top_k := 100, ignore_eos := false,
    no_cpu_npu_parallel := false, no_prefix_cache := false, data_type := "image" }

/-- A chunk with one choice (index 0) and the given finish reason, content and role. -/
def mkChunk (finish content role : Option String) : ChatCompletionChunkObject :=
  { choices := [{ finish_reason := finish, index := 0, content := content, role := role }],
    created := 0, model := "qwen", system_fingerprint := "",
    usage := { completion_tokens := 0, prompt_tokens := 0, total_tokens := 0 }, id := "1" }

/-- Events `init(QWEN, path, 4096)` with a completed handshake, then `input` of the hello
request with the given streaming flag. -/
def loadHello (streaming : Bool) : List Event :=
  [.call (.init 5 "/data/models/pbnn" 4096 (some 3)),
   .call (.input (.chat helloRequest) streaming)]

/-- The exceptions the helpers of `cnntest.cpp` throw, and `undefined` for executions the
C++ standard leaves undefined (signed `int` overflow, an index outside a vector). -/
inductive Err
  | invalid_argument (msg : String)
  | runtime_error (msg : String)
  | undefined
  deriving DecidableEq, Repr

deriving instance DecidableEq for Except

/-! ### Command line of `main` -/

/-- The static struct `options` and its member initialisers. -/
structure Options where
  model_root_path : String
  test_results_path : String
  deriving DecidableEq, Repr

/-- The initial value of the static `options` object. -/
def options : Options :=
  { model_root_path := "/data/models/pbnn", test_results_path := "./cnn_results.json" }

/-- The default results file that the help text documents for `-o`. -/
def documentedDefault : String := "./test_results.json"

/-- The raw string `main` prints for `-h` after the usage line. -/
def helpText : String :=
  "Options:\n" ++
  "  -h, --help                      Display this information\n" ++
  "      --model-root-path=PATH      Model root path\n" ++
  "  -o FILE                         Output test results to FILE (default: " ++
  documentedDefault ++ ")\n"

/-- How a run of `main` ends: after printing the help (`return 0`), after an option error
or without a config file (`return 1`), with the results file not opened (`return 1`), or
with the results of the listed config files written to `path` (`return 0`). -/
inductive Exit
  | help
  | badOption
  | usage
  | openFailed (path : String)
  | written (path : String) (configs : List String)
  deriving DecidableEq, Repr

/-- The entries of `long_options` (`help`, `model-root-path`) that a `--name` argument
selects: the exact name, or else every entry it abbreviates (`getopt_long`). -/
def longMatches (name : String) : List String :=
  if name = "help" ∨ name = "model-root-path" then [name]
  else ["help", "model-root-path"].filter (fun l => name.toList.isPrefixOf l.toList)

/-- The option loop of `main`: `getopt_long(argc, argv, "ho:", long_options, _)` until it
returns -1, with the `switch` applied to every option found. Arguments that are not
options are collected (GNU `getopt` moves them behind the options); `--` ends the options.
The result is the first `return` of the loop, or the options and the config files. -/
def parseArgs (opts : Options) (operands : List String) :
    List String → Except Exit (Options × List String)
  | [] => .ok (opts, operands.reverse)
  | a :: rest =>
    if a = "--" then .ok (opts, operands.reverse ++ rest)
    else if "--".toList.isPrefixOf a.toList then
      let body := a.toList.drop 2
      let name := String.mk (body.takeWhile (fun ch => ch != '='))
      let value := (body.dropWhile (fun ch => ch != '=')).drop 1
      let hasValue := body.any (fun ch => ch == '=')
      match longMatches name with
      | ["help"] => if hasValue then .error .badOption else .error .help
      | ["model-root-path"] =>
        if hasValue then
          parseArgs { opts with model_root_path := String.mk value } operands rest
        else
          match rest with
          | [] => .error .badOption
          | v :: rest2 => parseArgs { opts with model_root_path := v } operands rest2
      | _ => .error .badOption
    else
      match a.toList with
      | '-' :: 'h' :: _ => .error .help
      | '-' :: 'o' :: [] =>
        match rest with
        | [] => .error .badOption
        | v :: rest2 => parseArgs { opts with test_results_path := v } operands rest2
      | '-' :: 'o' :: attached =>
        parseArgs { opts with test_results_path := String.mk attached } operands rest
      | '-' :: _ :: _ => .error .badOption
      | _ => parseArgs opts (a :: operands) rest

/-- Function `main` of `cnntest.cpp`: parse the options, require a config file
(`optind == argc` is the usage error; with an empty `argv` `optind` stays 1 and differs
from `argc = 0`, so the run goes on without config files), run the config files (their
effect is the content of the results, not modelled), then open
`options.test_results_path` for writing; `canOpen` tells whether that succeeds. -/
def cnntest_main (argv : List String) (canOpen : String → Bool) : Exit :=
  match parseArgs options [] (argv.drop 1) with
  | .error e => e
  | .ok (opts, configs) =>
    if configs.isEmpty && !argv.isEmpty then .usage
    else if canOpen opts.test_results_path then .written opts.test_results_path configs
    else .openFailed opts.test_results_path

/-! ### Layout conversion -/

/-- Largest value of C `int`. -/
def INT_MAX : Int := 2147483647

/-- Smallest value of C `int`. -/
def INT_MIN : Int := -2147483648

/-- Multiplication `a * b` of two `int`; a result outside `int` is undefined. -/
def intMul (a b : Int) : Except Err Int :=
  if INT_MIN ≤ a * b ∧ a * b ≤ INT_MAX then .ok (a * b) else .error .undefined

/-- Addition `a + b` of two `int`; a result outside `int` is undefined. -/
def intAdd (a b : Int) : Except Err Int :=
  if INT_MIN ≤ a + b ∧ a + b ≤ INT_MAX then .ok (a + b) else .error .undefined

/-- Conversion of an `int` to the 64-bit `size_t`. -/
def toSize (x : Int) : Nat := (x % 2 ^ 64).toNat

/-- Multiplication of two `size_t`, which wraps modulo `2^64`. -/
def sizeMul (a b : Nat) : Nat := (a * b) % 2 ^ 64

/-- The value of `static_cast<size_t>(N) * C * H * W`. -/
def total_elements (N C H W : Int) : Nat :=
  sizeMul (sizeMul (sizeMul (toSize N) (toSize C)) (toSize H)) (toSize W)

/-- The initialiser `n * C * H * W + c * H * W + h * W + w` of `nchw_index`, evaluated in
`int` and converted to `size_t`. -/
def nchw_index (n c h w C H W : Int) : Except Err Nat := do
  let a ← intMul n C
  let a ← intMul a H
  let a ← intMul a W
  let b ← intMul c H
  let b ← intMul b W
  let d ← intMul h W
  let t ← intAdd a b
  let t ← intAdd t d
  let t ← intAdd t w
  pure (toSize t)

/-- The initialiser `n * H * W * C + h * W * C + w * C + c` of `nhwc_index`, evaluated in
`int` and converted to `size_t`. -/
def nhwc_index (n c h w C H W : Int) : Except Err Nat := do
  let a ← intMul n H
  let a ← intMul a W
  let a ← intMul a C
  let b ← intMul h W
  let b ← intMul b C
  let d ← intMul w C
  let t ← intAdd a b
  let t ← intAdd t d
  let t ← intAdd t c
  pure (toSize t)

/-- Read `data[i]`; an index outside the vector is undefined. -/
def load {α : Type} (data : List α) (i : Nat) : Except Err α :=
  match data[i]? with
  | some x => .ok x
  | none => .error .undefined

/-- Assign `data[i] = x`; an index outside the vector is undefined. -/
def store {α : Type} (data : List α) (i : Nat) (x : α) : Except Err (List α) :=
  if i < data.length then .ok (data.set i x) else .error .undefined

/-- A loop `for (int i = 0; i < count; ++i) body`, threading the state through the
iterations and stopping at the first undefined step. -/
def forLoop {σ : Type} (count : Nat) (body : Nat → σ → Except Err σ) (start : σ) :
    Except Err σ :=
  (List.range count).foldlM (fun st i => body i st) start

/-- Template `convert_nchw_to_nhwc<T>`: the two argument checks, the value-initialised
output vector, and the loop nest over `n`, `h`, `w`, `c`. -/
def convert_nchw_to_nhwc {α : Type} [Inhabited α] (input_data : List α) (N C H W : Int) :
    Except Err (List α) :=
  if N ≤ 0 ∨ C ≤ 0 ∨ H ≤ 0 ∨ W ≤ 0 then
    .error (.invalid_argument "Dimensions must be positive integers")
  else if input_data.length ≠ total_elements N C H W then
    .error (.invalid_argument "Input data size does not match the specified dimensions")
  else
    forLoop N.toNat (fun n =>
      forLoop H.toNat (fun h =>
        forLoop W.toNat (fun w =>
          forLoop C.toNat (fun c output_data => do
            let nchw ← nchw_index n c h w C H W
            let nhwc ← nhwc_index n c h w C H W
            let x ← load input_data nchw
            store output_data nhwc x))))
      (List.replicate (total_elements N C H W) default)

/-- Template `convert_nhwc_to_nchw<T>`: the two argument checks, the value-initialised
output vector, and the loop nest over `n`, `c`, `h`, `w`. -/
def convert_nhwc_to_nchw {α : Type} [Inhabited α] (input_data : List α) (N C H W : Int) :
    Except Err (List α) :=
  if N ≤ 0 ∨ C ≤ 0 ∨ H ≤ 0 ∨ W ≤ 0 then
    .error (.invalid_argument "Dimensions must be positive integers")
  else if input_data.length ≠ total_elements N C H W then
    .error (.invalid_argument "Input data size does not match the specified dimensions")
  else
    forLoop N.toNat (fun n =>
      forLoop C.toNat (fun c =>
        forLoop H.toNat (fun h =>
          forLoop W.toNat (fun w output_data => do
            let nhwc ← nhwc_index n c h w C H W
            let nchw ← nchw_index n c h w C H W
            let x ← load input_data nhwc
            store output_data nchw x))))
      (List.replicate (total_elements N C H W) default)

/-! ### Byte reinterpretation -/

/-- Library function `memcpy(dst, src, n)` on byte buffers: the first `n` bytes of `dst`
are replaced by those of `src`; copying past the end of either buffer is undefined. -/
def memcpy (dst src : List Nat) (n : Nat) : Except Err (List Nat) :=
  if n ≤ dst.length ∧ n ≤ src.length then .ok (src.take n ++ dst.drop n)
  else .error .undefined

/-- The `count` objects of `size` bytes each stored back to back in `mem`: object `i` is
the bytes `[i * size, (i + 1) * size)`. -/
def objectsOf (size count : Nat) (mem : List Nat) : List (List Nat) :=
  (List.range count).map (fun i => (mem.drop (i * size)).take size)

/-- Template `convert_byte_to_type<T>`; `sizeofT` is `sizeof(T)` and a `T` is given by its
object representation, a list of `sizeofT` bytes. The result vector is value-initialised
(zero bytes) and then overwritten by `memcpy`. -/
def convert_byte_to_type (sizeofT : Nat) (bytes : List Nat) : Except Err (List (List Nat)) :=
  if bytes.isEmpty then .error (.runtime_error "字节流为空")
  else if bytes.length % sizeofT ≠ 0 then
    .error (.runtime_error
      ("字节数(" ++ toString bytes.length ++ ") 不是类型大小(" ++ toString sizeofT ++
        ") 的整数倍"))
  else
    let element_count := bytes.length / sizeofT
    let result := List.replicate (element_count * sizeofT) 0
    match memcpy result bytes bytes.length with
    | .ok mem => .ok (objectsOf sizeofT element_count mem)
    | .error e => .error e

/-! ### Similarity metrics -/

/-- The operations on `double` the metrics use. The metrics are defined for any
interpretation of them, so that what is proved about their control flow holds for
IEEE 754 arithmetic in particular. -/
structure DoubleOps (D : Type) where
  zero : D
  add : D → D → D
  sub : D → D → D
  mul : D → D → D
  div : D → D → D
  abs : D → D
  sqrt : D → D
  lt : D → D → Bool
  ofSize : Nat → D
  epsilon : D

/-- The `double` operations of the machine (`std::numeric_limits<double>::epsilon()` is
`2^-52`). -/
def ieee : DoubleOps Float :=
  { zero := 0.0, add := fun a b => a + b, sub := fun a b => a - b,
    mul := fun a b => a * b, div := fun a b => a / b, abs := Float.abs,
    sqrt := Float.sqrt, lt := fun a b => decide (a < b), ofSize := Float.ofNat,
    epsilon := 2.220446049250313e-16 }

/-- The outcome of a metric together with the number of vector elements it has read
(`reads` is a ghost counter: one per evaluation of `data1[i]` or `data2[i]`). -/
structure Run (D : Type) where
  reads : Nat
  outcome : Except Err D

/-- Element `i` of a vector (`operator[]`), for an index below the size. -/
def elem {D : Type} (F : DoubleOps D) (data : List D) (i : Nat) : D :=
  data.getD i F.zero

/-- Function `calc_mse`. -/
def calc_mse {D : Type} (F : DoubleOps D) (data1 data2 : List D) : Run D :=
  if data1.length ≠ data2.length then ⟨0, .error (.invalid_argument "data size mismatch")⟩
  else
    let sumSquaredErrors := (List.range data1.length).foldl
      (fun acc i =>
        let error := F.sub (elem F data1 i) (elem F data2 i)
        F.add acc (F.mul error error)) F.zero
    ⟨2 * data1.length, .ok (F.div sumSquaredErrors (F.ofSize data1.length))⟩

/-- Function `calc_cosine_sim`; the loop state is (`dotProduct`, `norm1`, `norm2`). -/
def calc_cosine_sim {D : Type} (F : DoubleOps D) (data1 data2 : List D) : Run D :=
  if data1.length ≠ data2.length then ⟨0, .error (.invalid_argument "data size mismatch")⟩
  else
    let sums := (List.range data1.length).foldl
      (fun (acc : D × D × D) i =>
        (F.add acc.1 (F.mul (elem F data1 i) (elem F data2 i)),
         F.add acc.2.1 (F.mul (elem F data1 i) (elem F data1 i)),
         F.add acc.2.2 (F.mul (elem F data2 i) (elem F data2 i)))) (F.zero, F.zero, F.zero)
    let norm1 := F.sqrt sums.2.1
    let norm2 := F.sqrt sums.2.2
    if F.lt norm1 F.epsilon || F.lt norm2 F.epsilon then
      ⟨6 * data1.length, .error (.runtime_error "向量模长为零，无法计算余弦相似度")⟩
    else
      ⟨6 * data1.length, .ok (F.div sums.1 (F.add (F.mul norm1 norm2) F.epsilon))⟩

/-- Function `calc_max_abs_error`. -/
def calc_max_abs_error {D : Type} (F : DoubleOps D) (data1 data2 : List D) : Run D :=
  if data1.length ≠ data2.length then ⟨0, .error (.invalid_argument "data size mismatch")⟩
  else
    let maxError := (List.range data1.length).foldl
      (fun acc i =>
        let error := F.abs (F.sub (elem F data1 i) (elem F data2 i))
        if F.lt acc error then error else acc) F.zero
    ⟨2 * data1.length, .ok maxError⟩

/-- One iteration of the loop of `calc_max_relative_error` on the state
(`maxRelativeError`, `validCount`); `validCount++` on an `int` equal to `INT_MAX` is
undefined. -/
def relativeStep {D : Type} (F : DoubleOps D) (data1 data2 : List D)
    (acc : D × Int) (i : Nat) : Except Err (D × Int) :=
  if F.lt F.epsilon (F.abs (elem F data1 i)) then
    let relativeError :=
      F.div (F.abs (F.sub (elem F data1 i) (elem F data2 i))) (F.abs (elem F data1 i))
    let maxRelativeError := if F.lt acc.1 relativeError then relativeError else acc.1
    if acc.2 < INT_MAX then .ok (maxRelativeError, acc.2 + 1) else .error .undefined
  else .ok acc

/-- Element reads of the loop of `calc_max_relative_error`: one for the test of
`data1[i]`, three more when the relative error is computed. -/
def relativeReads {D : Type} (F : DoubleOps D) (data1 : List D) : Nat :=
  (List.range data1.length).foldl
    (fun r i => if F.lt F.epsilon (F.abs (elem F data1 i)) then r + 4 else r + 1) 0

/-- Function `calc_max_relative_error`. -/
def calc_max_relative_error {D : Type} (F : DoubleOps D) (data1 data2 : List D) : Run D :=
  if data1.length ≠ data2.length then ⟨0, .error (.invalid_argument "data size mismatch")⟩
  else
    match (List.range data1.length).foldlM (relativeStep F data1 data2) (F.zero, 0) with
    | .error e => ⟨relativeReads F data1, .error e⟩
    | .ok (maxRelativeError, validCount) =>
      if validCount = 0 then
        ⟨relativeReads F data1,
          .error (.runtime_error "所有参考值都为零，无法计算相对误差")⟩
      else ⟨relativeReads F data1, .ok maxRelativeError⟩

/-- The test `std::abs(data1[i]) > std::numeric_limits<double>::epsilon()` that guards
the body of the loop of `calc_max_relative_error`. -/
def counted {D : Type} (F : DoubleOps D) (data1 : List D) (i : Nat) : Bool :=
  F.lt F.epsilon (F.abs (elem F data1 i))

/-- The relative error of element `i`:
`std::abs(data1[i] - data2[i]) / std::abs(data1[i])`. -/
def relativeError {D : Type} (F : DoubleOps D) (data1 data2 : List D) (i : Nat) : D :=
  F.div (F.abs (F.sub (elem F data1 i) (elem F data2 i))) (F.abs (elem F data1 i))

/-- The maximum, started at `0.0` and raised by `>`, of the relative errors of the
elements at the given indices, in order. -/
def maxRelativeOver {D : Type} (F : DoubleOps D) (data1 data2 : List D) (indices : List Nat) :
    D :=
  indices.foldl
    (fun m i => if F.lt m (relativeError F data1 data2 i) then relativeError F data1 data2 i
      else m) F.zero

/-- Exact arithmetic on rationals as an interpretation of the `double` operations, with
`epsilon = 2^-52`. It agrees with IEEE 754 wherever the operands and the exact result are
representable, which is all that is evaluated with it here; `sqrt` is the root of the
numerator times the denominator, rounded down, over the denominator. -/
def rational : DoubleOps ℚ :=
  { zero := 0, add := fun a b => a + b, sub := fun a b => a - b,
    mul := fun a b => a * b, div := fun a b => a / b, abs := fun a => |a|,
    sqrt := fun a => (Nat.sqrt (a.num.toNat * a.den) : ℚ) / a.den,
    lt := fun a b => decide (a < b), ofSize := fun n => (n : ℚ),
    epsilon := 1 / 2 ^ 52 }

/-! ### Model identifiers -/

/-- The static table `model_files` of `cnntest.cpp`: model id and file name, in the order
of the initialiser list. -/
def model_files : List (Int × String) :=
  [(ModelType.RESNET50.toInt, "int8_resnet50_sim_b1.pbnn"),
   (ModelType.REPVGG.toInt, "int8_repvgg_b1_sim_b1.pbnn"),
   (ModelType.YOLOV8S.toInt, "yolov8s.pbnn")]

/-- The valid values of `model` listed in the doc comment of `init_model`
(`pb_infer_api.h`): number and name. -/
def documentedModels : List (Int × String) :=
  [(1, "minicpm"), (2, "deepseek"), (3, "phi4"), (4, "minicpmv1b"), (5, "qwen"),
   (6, "paligemma2")]

/-- The enumerators of `ModelType` declared before `FIRST_CNN_MODEL`: the language
models. -/
def languageModels : List ModelType :=
  [.MINICPM, .DEEPSEEK, .PHI4, .MINICPMV1B, .QWEN, .PALIGEMMA, .PALIGEMMA_V1_1,
   .QWEN_2_5VL_7B, .QWEN_2_5VL_3B, .QWEN_2_5VL_7B_DA04, .QWEN_2_5OMNI_7B_DA04,
   .INTERNVL3_8B]

/-- The enumerators of `ModelType` declared from `FIRST_CNN_MODEL` on: the CNN models. -/
def cnnModels : List ModelType := [.RESNET50, .REPVGG, .YOLOV8S]

/-! ## Theorems: session protocol -/

theorem run_append (s : Session) (es fs : List Event) :
    s.run (es ++ fs) = (s.run es).run fs := by
  simp [Session.run, List.foldl_append]

theorem run_cons (s : Session) (e : Event) (es : List Event) :
    s.run (e :: es) = (s.after e).run es := rfl

theorem run_nil (s : Session) : s.run [] = s := rfl

theorem receive_middle_chunk (s : Session) (c : ChatCompletionChunkObject)
    (hE : s.state = .Executing) (hs : s.stream = true) (hc : isTerminal c = false) :
    receive s (.frame (.responseChunk c)) = { s with delivered := s.delivered ++ [c] } := by
  simp [receive, hE, hs, hc]

theorem receive_terminal_chunk (s : Session) (c : ChatCompletionChunkObject)
    (hE : s.state = .Executing) (hs : s.stream = true) (hc : isTerminal c = true) :
    receive s (.frame (.responseChunk c)) =
      { s with state := .Ready, delivered := s.delivered ++ [c],
               result := some (.chunks (s.delivered ++ [c])) } := by
  simp [receive, hE, hs, hc]

theorem run_middle_chunks (cs : List ChatCompletionChunkObject) :
    ∀ s : Session, s.state = .Executing → s.stream = true →
      (∀ x ∈ cs, isTerminal x = false) →
      s.run (chunkEvents cs) = { s with delivered := s.delivered ++ cs } := by
  induction cs with
  | nil => intro s _ _ _; simp [chunkEvents, Session.run]
  | cons c cs ih =>
    intro s hE hs hcs
    have hc : isTerminal c = false := hcs c (List.mem_cons_self _ _)
    have hrest : ∀ x ∈ cs, isTerminal x = false :=
      fun x hx => hcs x (List.mem_cons_of_mem _ hx)
    have h1 : s.run (chunkEvents (c :: cs)) =
        (receive s (.frame (.responseChunk c))).run (chunkEvents cs) := rfl
    rw [h1, receive_middle_chunk s c hE hs hc,
      ih { s with delivered := s.delivered ++ [c] } hE hs hrest]
    simp

theorem run_stream (s : Session) (cs : List ChatCompletionChunkObject)
    (c : ChatCompletionChunkObject) (hE : s.state = .Executing) (hs : s.stream = true)
    (hcs : ∀ x ∈ cs, isTerminal x = false) (hc : isTerminal c = true) :
    s.run (chunkEvents (cs ++ [c])) =
      { s with state := .Ready, delivered := s.delivered ++ cs ++ [c],
               result := some (.chunks (s.delivered ++ cs ++ [c])) } := by
  have h1 : chunkEvents (cs ++ [c]) = chunkEvents cs ++ chunkEvents [c] := by
    simp [chunkEvents]
  rw [h1, run_append, run_middle_chunks cs s hE hs hcs]
  have h2 : ∀ t : Session, t.run (chunkEvents [c]) = receive t (.frame (.responseChunk c)) :=
    fun _ => rfl
  rw [h2, receive_terminal_chunk { s with delivered := s.delivered ++ cs } c hE hs hc]

theorem step_keeps_sink (s : Session) (op : Op) (hE : s.state ≠ .Executing)
    (hop : Event.isExecute (.call op) = false) :
    (step s op).2.state ≠ .Executing ∧ (step s op).2.delivered = s.delivered := by
  cases op with
  | init model path ctx_len handshake =>
    cases hst : s.state <;> simp [hst] at hE <;>
      simp only [step, ModelHandler.init, hst] <;>
      (try split) <;> (try split) <;> simp [hst]
  | input request streaming =>
    cases hst : s.state <;> simp [hst] at hE <;>
      simp only [step, ModelHandler.input, hst] <;>
      (try split) <;> simp [hst]
  | execute sent reply => simp [Event.isExecute] at hop
  | output =>
    cases hst : s.state <;> simp [hst] at hE <;>
      simp only [step, ModelHandler.output, hst] <;>
      (try split) <;> simp [hst]
  | abort =>
    cases hst : s.state <;> simp [hst] at hE <;>
      simp [step, abort_request, hst]
  | save token_count engine =>
    cases hst : s.state <;> simp [hst] at hE <;>
      simp only [step, save_kv_cache, hst] <;>
      (try split) <;> (try split) <;> (try split) <;> simp [hst]
  | load cache =>
    cases hst : s.state <;> simp [hst] at hE <;>
      simp only [step, load_kv_cache, hst] <;>
      (try split) <;> (try split) <;> simp [hst]

theorem after_keeps_sink (s : Session) (e : Event) (hE : s.state ≠ .Executing)
    (he : e.isExecute = false) :
    (s.after e).state ≠ .Executing ∧ (s.after e).delivered = s.delivered := by
  cases e with
  | call op => exact step_keeps_sink s op hE he
  | recv r => simp [Session.after, receive, hE]
  | terminate => simp [Session.after, terminate_model]

theorem run_keeps_sink (es : List Event) :
    ∀ s : Session, s.state ≠ .Executing → (∀ e ∈ es, e.isExecute = false) →
      (s.run es).state ≠ .Executing ∧ (s.run es).delivered = s.delivered := by
  induction es with
  | nil => intro s hE _; exact ⟨hE, rfl⟩
  | cons e es ih =>
    intro s hE hes
    have h1 := after_keeps_sink s e hE (hes e (List.mem_cons_self _ _))
    have h2 := ih (s.after e) h1.1 (fun x hx => hes x (List.mem_cons_of_mem _ hx))
    rw [run_cons]
    exact ⟨h2.1, h2.2.trans h1.2⟩

/-- C4: `abort` is a pure signal. Issued while a streaming request is Executing it
returns at once, having only recorded that cancellation was signalled (it consumes no
frame); and once the terminal chunk with the "aborted" finish reason has been delivered,
whatever happens afterwards short of a new `execute` delivers no further chunk to the
caller's sink. -/
theorem abort_is_pure_signal (s : Session) (cs : List ChatCompletionChunkObject)
    (c : ChatCompletionChunkObject) (es : List Event)
    (hE : s.state = .Executing) (hs : s.stream = true)
    (hcs : ∀ x ∈ cs, isTerminal x = false)
    (hc : ∃ ch ∈ c.choices, ch.finish_reason = some "aborted")
    (hes : ∀ e ∈ es, e.isExecute = false) :
    abort_request s = (.done, { s with abort_sent := true }) ∧
    ((abort_request s).2.run (chunkEvents (cs ++ [c]))).delivered = s.delivered ++ cs ++ [c] ∧
    (((abort_request s).2.run (chunkEvents (cs ++ [c]))).run es).delivered
      = s.delivered ++ cs ++ [c] := by
  have ha : abort_request s = (.done, { s with abort_sent := true }) := by
    simp [abort_request, hE]
  have hterm : isTerminal c = true := by
    obtain ⟨ch, hmem, hfin⟩ := hc
    simp only [isTerminal, List.any_eq_true]
    exact ⟨ch, hmem, by simp [hfin]⟩
  have hrun := run_stream { s with abort_sent := true } cs c hE hs hcs hterm
  refine ⟨ha, ?_, ?_⟩
  · rw [ha, hrun]
  · rw [ha, hrun]
    exact (run_keeps_sink es _ (by simp) hes).2

theorem abort_is_pure_signal_witness :
    abort_request (Session.empty.run (loadHello true ++ [.call (.execute true .disconnect)]))
      = (.done, { Session.empty.run (loadHello true ++ [.call (.execute true .disconnect)])
                  with abort_sent := true }) ∧
    ((abort_request
        (Session.empty.run (loadHello true ++ [.call (.execute true .disconnect)]))).2.run
      (chunkEvents ([mkChunk none none (some "assistant")]
        ++ [mkChunk (some "aborted") none none]))).delivered
      = (Session.empty.run (loadHello true ++ [.call (.execute true .disconnect)])).delivered
        ++ [mkChunk none none (some "assistant")] ++ [mkChunk (some "aborted") none none] ∧
    (((abort_request
        (Session.empty.run (loadHello true ++ [.call (.execute true .disconnect)]))).2.run
      (chunkEvents ([mkChunk none none (some "assistant")]
        ++ [mkChunk (some "aborted") none none]))).run
      [.recv (.frame (.responseChunk (mkChunk none (some "late") none))),
       .call .output]).delivered
      = (Session.empty.run (loadHello true ++ [.call (.execute true .disconnect)])).delivered
        ++ [mkChunk none none (some "assistant")] ++ [mkChunk (some "aborted") none none] :=
  abort_is_pure_signal
    (Session.empty.run (loadHello true ++ [.call (.execute true .disconnect)]))
    [mkChunk none none (some "assistant")] (mkChunk (some "aborted") none none)
    [.recv (.frame (.responseChunk (mkChunk none (some "late") none))), .call .output]
    (by decide) (by decide) (by decide) (by decide) (by decide)

/-- C7 (the code at the failing input): run with one config file and no `-o`, `main`
writes the results to `./cnn_results.json`, which is not the default
`./test_results.json` that its help text documents; with `-o out.json` it writes to
`out.json`. -/
theorem default_results_file_differs_from_help :
    cnntest_main ["cnntest", "cases.json"] (fun _ => true)
      = .written "./cnn_results.json" ["cases.json"] ∧
    "./cnn_results.json" ≠ documentedDefault ∧
    cnntest_main ["cnntest", "-o", "out.json", "cases.json"] (fun _ => true)
      = .written "out.json" ["cases.json"] := by
  decide

/-! ### Layout conversion -/

theorem forLoop_first_undefined {σ : Type} (count : Nat) (body : Nat → σ → Except Err σ)
    (start : σ) (e : Err) (hc : 0 < count) (h : body 0 start = .error e) :
    forLoop count body start = .error e := by
  obtain ⟨k, rfl⟩ : ∃ k, count = k + 1 := ⟨count - 1, by omega⟩
  simp only [forLoop, List.range_succ_eq_map, List.foldlM_cons, h]
  rfl

theorem total_elements_wraps : total_elements 65536 65536 65536 65536 = 0 := by
  decide

/-- C8 (the code at the failing input): for `N = C = H = W = 65536` the product
`N*C*H*W` is `2^64`, which `size_t` wraps to 0, so an empty input vector passes the size
check although its length differs from `N*C*H*W`; neither conversion throws
`invalid_argument`, and the first loop iteration indexes an empty vector (undefined
behaviour). -/
theorem convert_accepts_wrapped_size :
    (([] : List Nat).length : Int) ≠ 65536 * 65536 * 65536 * 65536 ∧
    convert_nchw_to_nhwc ([] : List Nat) 65536 65536 65536 65536 = .error .undefined ∧
    convert_nhwc_to_nchw ([] : List Nat) 65536 65536 65536 65536 = .error .undefined := by
  have hdim : ¬ ((65536 : Int) ≤ 0 ∨ (65536 : Int) ≤ 0 ∨ (65536 : Int) ≤ 0 ∨ (65536 : Int) ≤ 0) := by
    decide
  have hpos : 0 < (65536 : Int).toNat := by decide
  refine ⟨by decide, ?_, ?_⟩
  · unfold convert_nchw_to_nhwc
    rw [if_neg hdim, total_elements_wraps, if_neg (by simp)]
    refine forLoop_first_undefined _ _ _ _ hpos ?_
    refine forLoop_first_undefined _ _ _ _ hpos ?_
    refine forLoop_first_undefined _ _ _ _ hpos ?_
    refine forLoop_first_undefined _ _ _ _ hpos ?_
    decide
  · unfold convert_nhwc_to_nchw
    rw [if_neg hdim, total_elements_wraps, if_neg (by simp)]
    refine forLoop_first_undefined _ _ _ _ hpos ?_
    refine forLoop_first_undefined _ _ _ _ hpos ?_
    refine forLoop_first_undefined _ _ _ _ hpos ?_
    refine forLoop_first_undefined _ _ _ _ hpos ?_
    decide

/-! #### Inside and outside the range of `int` -/

theorem foldlM_ok {σ : Type} (P : σ → Prop) (body : Nat → σ → Except Err σ) (l : List Nat)
    (h : ∀ i ∈ l, ∀ st, P st → ∃ st', body i st = .ok st' ∧ P st') :
    ∀ start, P start → ∃ fin, l.foldlM (fun st i => body i st) start = .ok fin ∧ P fin := by
  induction l with
  | nil => intro start hs; exact ⟨start, rfl, hs⟩
  | cons a l ih =>
    intro start hs
    obtain ⟨st', h1, h2⟩ := h a (List.mem_cons_self _ _) start hs
    obtain ⟨fin, h3, h4⟩ := ih (fun i hi => h i (List.mem_cons_of_mem _ hi)) st' h2
    refine ⟨fin, ?_, h4⟩
    simp only [List.foldlM_cons, h1]
    exact h3

theorem forLoop_ok {σ : Type} (P : σ → Prop) (count : Nat) (body : Nat → σ → Except Err σ)
    (h : ∀ i, i < count → ∀ st, P st → ∃ st', body i st = .ok st' ∧ P st') :
    ∀ start, P start → ∃ fin, forLoop count body start = .ok fin ∧ P fin :=
  foldlM_ok P body (List.range count) (fun i hi => h i (List.mem_range.mp hi))

theorem intMul_ok (a b : Int) (h0 : 0 ≤ a * b) (h1 : a * b ≤ INT_MAX) :
    intMul a b = .ok (a * b) := by
  have : INT_MIN ≤ a * b := le_trans (by decide) h0
  simp [intMul, this, h1]

theorem intAdd_ok (a b : Int) (h0 : 0 ≤ a + b) (h1 : a + b ≤ INT_MAX) :
    intAdd a b = .ok (a + b) := by
  have : INT_MIN ≤ a + b := le_trans (by decide) h0
  simp [intAdd, this, h1]

theorem index_bound (n c h w N C H W : Nat) (hn : n < N) (hc : c < C) (hh : h < H)
    (hw : w < W) : n * C * H * W + c * H * W + h * W + w < N * C * H * W := by
  have h1 : n * C + c + 1 ≤ N * C := by
    calc n * C + c + 1 ≤ n * C + C := by omega
      _ = (n + 1) * C := by ring
      _ ≤ N * C := Nat.mul_le_mul_right _ hn
  have h2 : (n * C + c) * H + h + 1 ≤ N * C * H := by
    calc (n * C + c) * H + h + 1 ≤ (n * C + c) * H + H := by omega
      _ = (n * C + c + 1) * H := by ring
      _ ≤ N * C * H := Nat.mul_le_mul_right _ h1
  have h3 : ((n * C + c) * H + h) * W + w + 1 ≤ N * C * H * W := by
    calc ((n * C + c) * H + h) * W + w + 1 ≤ ((n * C + c) * H + h) * W + W := by omega
      _ = ((n * C + c) * H + h + 1) * W := by ring
      _ ≤ N * C * H * W := Nat.mul_le_mul_right _ h2
  have h4 : n * C * H * W + c * H * W + h * W + w = ((n * C + c) * H + h) * W + w := by ring
  omega

theorem toSize_natCast (k : Nat) (hk : k < 2 ^ 64) : toSize (k : Int) = k := by
  unfold toSize
  have h1 : ((k : Int)) % 2 ^ 64 = k :=
    Int.emod_eq_of_lt (Int.natCast_nonneg k) (by exact_mod_cast hk)
  rw [h1]; simp

theorem nchw_index_ok (n c h w N C H W : Nat) (hn : n < N) (hc : c < C) (hh : h < H)
    (hw : w < W) (hT : N * C * H * W ≤ 2147483648) :
    nchw_index (n : Int) c h w C H W = .ok (n * C * H * W + c * H * W + h * W + w) := by
  have hb := index_bound n c h w N C H W hn hc hh hw
  have hH : 1 ≤ H := by omega
  have hW : 1 ≤ W := by omega
  have a1 : n * C ≤ n * C * H := Nat.le_mul_of_pos_right _ hH
  have a2 : n * C * H ≤ n * C * H * W := Nat.le_mul_of_pos_right _ hW
  have b1 : c * H ≤ c * H * W := Nat.le_mul_of_pos_right _ hW
  have e1 : intMul (n : Int) C = .ok ((n * C : Nat) : Int) := by
    rw [intMul_ok _ _ (by positivity) (by unfold INT_MAX; norm_cast; omega)]; norm_cast
  have e2 : intMul ((n * C : Nat) : Int) H = .ok ((n * C * H : Nat) : Int) := by
    rw [intMul_ok _ _ (by positivity) (by unfold INT_MAX; norm_cast; omega)]; norm_cast
  have e3 : intMul ((n * C * H : Nat) : Int) W = .ok ((n * C * H * W : Nat) : Int) := by
    rw [intMul_ok _ _ (by positivity) (by unfold INT_MAX; norm_cast; omega)]; norm_cast
  have e4 : intMul (c : Int) H = .ok ((c * H : Nat) : Int) := by
    rw [intMul_ok _ _ (by positivity) (by unfold INT_MAX; norm_cast; omega)]; norm_cast
  have e5 : intMul ((c * H : Nat) : Int) W = .ok ((c * H * W : Nat) : Int) := by
    rw [intMul_ok _ _ (by positivity) (by unfold INT_MAX; norm_cast; omega)]; norm_cast
  have e6 : intMul (h : Int) W = .ok ((h * W : Nat) : Int) := by
    rw [intMul_ok _ _ (by positivity) (by unfold INT_MAX; norm_cast; omega)]; norm_cast
  have e7 : intAdd ((n * C * H * W : Nat) : Int) ((c * H * W : Nat) : Int)
      = .ok ((n * C * H * W + c * H * W : Nat) : Int) := by
    rw [intAdd_ok _ _ (by positivity) (by unfold INT_MAX; norm_cast; omega)]; norm_cast
  have e8 : intAdd ((n * C * H * W + c * H * W : Nat) : Int) ((h * W : Nat) : Int)
      = .ok ((n * C * H * W + c * H * W + h * W : Nat) : Int) := by
    rw [intAdd_ok _ _ (by positivity) (by unfold INT_MAX; norm_cast; omega)]; norm_cast
  have e9 : intAdd ((n * C * H * W + c * H * W + h * W : Nat) : Int) (w : Int)
      = .ok ((n * C * H * W + c * H * W + h * W + w : Nat) : Int) := by
    rw [intAdd_ok _ _ (by positivity) (by unfold INT_MAX; norm_cast; omega)]; norm_cast
  simp only [nchw_index, e1, e2, e3, e4, e5, e6, e7, e8, e9, bind, Except.bind, pure,
    Except.pure]
  rw [toSize_natCast _ (by omega)]

theorem nhwc_index_ok (n c h w N C H W : Nat) (hn : n < N) (hc : c < C) (hh : h < H)
    (hw : w < W) (hT : N * C * H * W ≤ 2147483648) :
    nhwc_index (n : Int) c h w C H W = .ok (n * H * W * C + h * W * C + w * C + c) := by
  have hb := index_bound n h w c N H W C hn hh hw hc
  have hT2 : N * H * W * C ≤ 2147483648 := by
    have : N * H * W * C = N * C * H * W := by ring
    omega
  have hC : 1 ≤ C := by omega
  have hW : 1 ≤ W := by omega
  have a1 : n * H ≤ n * H * W := Nat.le_mul_of_pos_right _ hW
  have a2 : n * H * W ≤ n * H * W * C := Nat.le_mul_of_pos_right _ hC
  have b1 : h * W ≤ h * W * C := Nat.le_mul_of_pos_right _ hC
  have e1 : intMul (n : Int) H = .ok ((n * H : Nat) : Int) := by
    rw [intMul_ok _ _ (by positivity) (by unfold INT_MAX; norm_cast; omega)]; norm_cast
  have e2 : intMul ((n * H : Nat) : Int) W = .ok ((n * H * W : Nat) : Int) := by
    rw [intMul_ok _ _ (by positivity) (by unfold INT_MAX; norm_cast; omega)]; norm_cast
  have e3 : intMul ((n * H * W : Nat) : Int) C = .ok ((n * H * W * C : Nat) : Int) := by
    rw [intMul_ok _ _ (by positivity) (by unfold INT_MAX; norm_cast; omega)]; norm_cast
  have e4 : intMul (h : Int) W = .ok ((h * W : Nat) : Int) := by
    rw [intMul_ok _ _ (by positivity) (by unfold INT_MAX; norm_cast; omega)]; norm_cast
  have e5 : intMul ((h * W : Nat) : Int) C = .ok ((h * W * C : Nat) : Int) := by
    rw [intMul_ok _ _ (by positivity) (by unfold INT_MAX; norm_cast; omega)]; norm_cast
  have e6 : intMul (w : Int) C = .ok ((w * C : Nat) : Int) := by
    rw [intMul_ok _ _ (by positivity) (by unfold INT_MAX; norm_cast; omega)]; norm_cast
  have e7 : intAdd ((n * H * W * C : Nat) : Int) ((h * W * C : Nat) : Int)
      = .ok ((n * H * W * C + h * W * C : Nat) : Int) := by
    rw [intAdd_ok _ _ (by positivity) (by unfold INT_MAX; norm_cast; omega)]; norm_cast
  have e8 : intAdd ((n * H * W * C + h * W * C : Nat) : Int) ((w * C : Nat) : Int)
      = .ok ((n * H * W * C + h * W * C + w * C : Nat) : Int) := by
    rw [intAdd_ok _ _ (by positivity) (by unfold INT_MAX; norm_cast; omega)]; norm_cast
  have e9 : intAdd ((n * H * W * C + h * W * C + w * C : Nat) : Int) (c : Int)
      = .ok ((n * H * W * C + h * W * C + w * C + c : Nat) : Int) := by
    rw [intAdd_ok _ _ (by positivity) (by unfold INT_MAX; norm_cast; omega)]; norm_cast
  simp only [nhwc_index, e1, e2, e3, e4, e5, e6, e7, e8, e9, bind, Except.bind, pure,
    Except.pure]
  rw [toSize_natCast _ (by omega)]

theorem total_elements_natCast (N C H W : Nat) (hN : 0 < N) (hC : 0 < C) (hH : 0 < H)
    (hW : 0 < W) (hT : N * C * H * W ≤ 2147483648) :
    total_elements (N : Int) C H W = N * C * H * W := by
  have h1 : N * C * H ≤ N * C * H * W := Nat.le_mul_of_pos_right _ hW
  have h2 : N * C ≤ N * C * H := Nat.le_mul_of_pos_right _ hH
  have h3 : N ≤ N * C := Nat.le_mul_of_pos_right _ hC
  have h4 : C ≤ N * C := Nat.le_mul_of_pos_left _ hN
  have h5 : H ≤ N * C * H := Nat.le_mul_of_pos_left _ (by positivity)
  have h6 : W ≤ N * C * H * W := Nat.le_mul_of_pos_left _ (by positivity)
  unfold total_elements sizeMul
  rw [toSize_natCast N (by omega), toSize_natCast C (by omega), toSize_natCast H (by omega),
    toSize_natCast W (by omega), Nat.mod_eq_of_lt (by omega : N * C < 2 ^ 64),
    Nat.mod_eq_of_lt (by omega : N * C * H < 2 ^ 64),
    Nat.mod_eq_of_lt (by omega : N * C * H * W < 2 ^ 64)]

theorem load_ok {α : Type} (data : List α) (i : Nat) (h : i < data.length) :
    ∃ x, load data i = .ok x := by
  simp [load, List.getElem?_eq_getElem h]

theorem copy_ok {α : Type} (input_data : List α) (T i j : Nat) (hin : input_data.length = T)
    (hi : i < T) (hj : j < T) (ix jx : Except Err Nat) (hix : ix = .ok i) (hjx : jx = .ok j)
    (out : List α) (hout : out.length = T) :
    ∃ out', (do
        let a ← ix
        let b ← jx
        let x ← load input_data a
        store out b x) = Except.ok out' ∧ out'.length = T := by
  subst hix hjx
  obtain ⟨x, hx⟩ := load_ok input_data i (by omega)
  have hs : store out j x = .ok (out.set j x) := by simp [store, hout, hj]
  exact ⟨out.set j x, by simp [bind, Except.bind, hx, hs], by simp [hout]⟩

/-- Within `int` range the conversions behave as documented: for positive dimensions with
`N*C*H*W ≤ 2^31` and an input of exactly `N*C*H*W` elements, both return normally a
vector of exactly `N*C*H*W` elements. -/
theorem convert_returns_in_range {α : Type} [Inhabited α] (input_data : List α)
    (N C H W : Int) (hN : 0 < N) (hC : 0 < C) (hH : 0 < H) (hW : 0 < W)
    (hT : N * C * H * W ≤ 2147483648) (hlen : (input_data.length : Int) = N * C * H * W) :
    (∃ out, convert_nchw_to_nhwc input_data N C H W = .ok out ∧
      (out.length : Int) = N * C * H * W) ∧
    (∃ out, convert_nhwc_to_nchw input_data N C H W = .ok out ∧
      (out.length : Int) = N * C * H * W) := by
  lift N to Nat using hN.le
  lift C to Nat using hC.le
  lift H to Nat using hH.le
  lift W to Nat using hW.le
  have hN' : 0 < N := by exact_mod_cast hN
  have hC' : 0 < C := by exact_mod_cast hC
  have hH' : 0 < H := by exact_mod_cast hH
  have hW' : 0 < W := by exact_mod_cast hW
  have hT' : N * C * H * W ≤ 2147483648 := by exact_mod_cast hT
  have hlen' : input_data.length = N * C * H * W := by exact_mod_cast hlen
  have hdim : ¬ ((N : Int) ≤ 0 ∨ (C : Int) ≤ 0 ∨ (H : Int) ≤ 0 ∨ (W : Int) ≤ 0) := by
    push_neg; exact ⟨hN, hC, hH, hW⟩
  have htot := total_elements_natCast N C H W hN' hC' hH' hW' hT'
  have hperm : ∀ n c h w : Nat,
      n * H * W * C + h * W * C + w * C + c < N * C * H * W ↔
      n * H * W * C + h * W * C + w * C + c < N * H * W * C := by
    intro n c h w
    have : N * H * W * C = N * C * H * W := by ring
    omega
  constructor
  · unfold convert_nchw_to_nhwc
    rw [if_neg hdim, htot, if_neg (by simp [hlen'])]
    simp only [Int.toNat_ofNat]
    obtain ⟨out, h1, h2⟩ := forLoop_ok (fun st : List α => st.length = N * C * H * W) N _
      (fun n hn st hst => forLoop_ok (fun st : List α => st.length = N * C * H * W) H _
        (fun h hh st hst => forLoop_ok (fun st : List α => st.length = N * C * H * W) W _
          (fun w hw st hst => forLoop_ok (fun st : List α => st.length = N * C * H * W) C _
            (fun c hc st hst =>
              copy_ok input_data (N * C * H * W) _ _ hlen'
                (index_bound n c h w N C H W hn hc hh hw)
                ((hperm n c h w).mpr (index_bound n h w c N H W C hn hh hw hc))
                _ _ (nchw_index_ok n c h w N C H W hn hc hh hw hT')
                (nhwc_index_ok n c h w N C H W hn hc hh hw hT') st hst)
            st hst) st hst) st hst)
      (List.replicate (N * C * H * W) default) (by simp)
    exact ⟨out, h1, by exact_mod_cast h2⟩
  · unfold convert_nhwc_to_nchw
    rw [if_neg hdim, htot, if_neg (by simp [hlen'])]
    simp only [Int.toNat_ofNat]
    obtain ⟨out, h1, h2⟩ := forLoop_ok (fun st : List α => st.length = N * C * H * W) N _
      (fun n hn st hst => forLoop_ok (fun st : List α => st.length = N * C * H * W) C _
        (fun c hc st hst => forLoop_ok (fun st : List α => st.length = N * C * H * W) H _
          (fun h hh st hst => forLoop_ok (fun st : List α => st.length = N * C * H * W) W _
            (fun w hw st hst =>
              copy_ok input_data (N * C * H * W) _ _ hlen'
                ((hperm n c h w).mpr (index_bound n h w c N H W C hn hh hw hc))
                (index_bound n c h w N C H W hn hc hh hw)
                _ _ (nhwc_index_ok n c h w N C H W hn hc hh hw hT')
                (nchw_index_ok n c h w N C H W hn hc hh hw hT') st hst)
            st hst) st hst) st hst)
      (List.replicate (N * C * H * W) default) (by simp)
    exact ⟨out, h1, by exact_mod_cast h2⟩

theorem foldlM_undefined {σ : Type} (body : Nat → σ → Except Err σ) (i : Nat)
    (hi : ∀ st, body i st = .error .undefined)
    (hall : ∀ j st e, body j st = .error e → e = .undefined) :
    ∀ (l : List Nat), i ∈ l → ∀ start,
      l.foldlM (fun st k => body k st) start = .error .undefined := by
  intro l
  induction l with
  | nil => intro h; simp at h
  | cons a l ih =>
    intro hmem start
    rw [List.foldlM_cons]
    cases hb : body a start with
    | error e =>
      have := hall a start e hb
      subst this
      rfl
    | ok st' =>
      rcases List.mem_cons.mp hmem with h | h
      · rw [← h, hi start] at hb
        exact absurd hb (by simp)
      · exact ih h st'

theorem forLoop_undefined {σ : Type} (count : Nat) (body : Nat → σ → Except Err σ) (i : Nat)
    (hlt : i < count) (hi : ∀ st, body i st = .error .undefined)
    (hall : ∀ j st e, body j st = .error e → e = .undefined) (start : σ) :
    forLoop count body start = .error .undefined :=
  foldlM_undefined body i hi hall (List.range count) (List.mem_range.mpr hlt) start

theorem forLoop_only_undefined {σ : Type} (count : Nat) (body : Nat → σ → Except Err σ)
    (hall : ∀ j st e, body j st = .error e → e = .undefined) :
    ∀ start e, forLoop count body start = .error e → e = .undefined := by
  unfold forLoop
  generalize List.range count = l
  induction l with
  | nil => intro start e h; simp [List.foldlM, pure, Except.pure] at h
  | cons a l ih =>
    intro start e h
    rw [List.foldlM_cons] at h
    cases hb : body a start with
    | error e' =>
      rw [hb] at h
      have h' : e' = e := by
        simpa [bind, Except.bind] using h
      exact h' ▸ hall a start e' hb
    | ok st' =>
      rw [hb] at h
      exact ih st' e h

theorem intMul_only_undefined (a b : Int) (e : Err) (h : intMul a b = .error e) :
    e = .undefined := by
  unfold intMul at h
  split at h <;> simp at h
  exact h.symm

theorem intAdd_only_undefined (a b : Int) (e : Err) (h : intAdd a b = .error e) :
    e = .undefined := by
  unfold intAdd at h
  split at h <;> simp at h
  exact h.symm

theorem bind_only_undefined {β γ : Type} (x : Except Err β) (f : β → Except Err γ)
    (hx : ∀ e, x = .error e → e = .undefined)
    (hf : ∀ b e, f b = .error e → e = .undefined) :
    ∀ e, (x >>= f) = .error e → e = .undefined := by
  intro e h
  cases x with
  | error e' =>
    have : e' = e := by simpa [bind, Except.bind] using h
    exact this ▸ hx e' rfl
  | ok b => exact hf b e h

theorem nchw_index_only_undefined (n c h w C H W : Int) (e : Err)
    (he : nchw_index n c h w C H W = .error e) : e = .undefined := by
  unfold nchw_index at he
  refine bind_only_undefined _ _ (intMul_only_undefined _ _) (fun _ => ?_) e he
  refine bind_only_undefined _ _ (intMul_only_undefined _ _) (fun _ => ?_)
  refine bind_only_undefined _ _ (intMul_only_undefined _ _) (fun _ => ?_)
  refine bind_only_undefined _ _ (intMul_only_undefined _ _) (fun _ => ?_)
  refine bind_only_undefined _ _ (intMul_only_undefined _ _) (fun _ => ?_)
  refine bind_only_undefined _ _ (intMul_only_undefined _ _) (fun _ => ?_)
  refine bind_only_undefined _ _ (intAdd_only_undefined _ _) (fun _ => ?_)
  refine bind_only_undefined _ _ (intAdd_only_undefined _ _) (fun _ => ?_)
  refine bind_only_undefined _ _ (intAdd_only_undefined _ _) (fun _ => ?_)
  intro e h; simp [pure, Except.pure] at h

theorem nhwc_index_only_undefined (n c h w C H W : Int) (e : Err)
    (he : nhwc_index n c h w C H W = .error e) : e = .undefined := by
  unfold nhwc_index at he
  refine bind_only_undefined _ _ (intMul_only_undefined _ _) (fun _ => ?_) e he
  refine bind_only_undefined _ _ (intMul_only_undefined _ _) (fun _ => ?_)
  refine bind_only_undefined _ _ (intMul_only_undefined _ _) (fun _ => ?_)
  refine bind_only_undefined _ _ (intMul_only_undefined _ _) (fun _ => ?_)
  refine bind_only_undefined _ _ (intMul_only_undefined _ _) (fun _ => ?_)
  refine bind_only_undefined _ _ (intMul_only_undefined _ _) (fun _ => ?_)
  refine bind_only_undefined _ _ (intAdd_only_undefined _ _) (fun _ => ?_)
  refine bind_only_undefined _ _ (intAdd_only_undefined _ _) (fun _ => ?_)
  refine bind_only_undefined _ _ (intAdd_only_undefined _ _) (fun _ => ?_)
  intro e h; simp [pure, Except.pure] at h

theorem load_only_undefined {α : Type} (data : List α) (i : Nat) (e : Err)
    (h : load data i = .error e) : e = .undefined := by
  unfold load at h
  split at h <;> simp at h
  exact h.symm

theorem store_only_undefined {α : Type} (data : List α) (i : Nat) (x : α) (e : Err)
    (h : store data i x = .error e) : e = .undefined := by
  unfold store at h
  split at h <;> simp at h
  exact h.symm

theorem copy_only_undefined {α : Type} (input_data : List α) (ix jx : Except Err Nat)
    (hix : ∀ e, ix = .error e → e = .undefined) (hjx : ∀ e, jx = .error e → e = .undefined)
    (out : List α) :
    ∀ e, (do
        let a ← ix
        let b ← jx
        let x ← load input_data a
        store out b x) = Except.error e → e = .undefined := by
  refine bind_only_undefined _ _ hix (fun a => ?_)
  refine bind_only_undefined _ _ hjx (fun b => ?_)
  refine bind_only_undefined _ _ (load_only_undefined _ _) (fun x => ?_)
  exact store_only_undefined _ _ _

/-- Beyond `int` range the index arithmetic overflows: a `1 x 3 x 32768 x 32768` tensor
has `3 * 2^30` elements, an input of exactly that length passes both checks, and the
loop nest then evaluates `c * H * W = 2^31` (respectively `h * W * C > 2^31`) in `int`,
which is undefined. -/
theorem convert_overflows_int {α : Type} [Inhabited α] (input_data : List α)
    (hlen : input_data.length = 3221225472) :
    convert_nchw_to_nhwc input_data 1 3 32768 32768 = .error .undefined ∧
    convert_nhwc_to_nchw input_data 1 3 32768 32768 = .error .undefined := by
  have hdim : ¬ ((1 : Int) ≤ 0 ∨ (3 : Int) ≤ 0 ∨ (32768 : Int) ≤ 0 ∨ (32768 : Int) ≤ 0) := by
    decide
  have htot : total_elements 1 3 32768 32768 = 3221225472 := by decide
  have t1 : (1 : Int).toNat = 1 := by decide
  have t3 : (3 : Int).toNat = 3 := by decide
  have t4 : (32768 : Int).toNat = 32768 := by decide
  constructor
  · unfold convert_nchw_to_nhwc
    rw [if_neg hdim, htot, if_neg (by simp [hlen]), t1, t3, t4]
    have inner : ∀ (n h w j : Nat) (st : List α) (e : Err),
        (do
          let nchw ← nchw_index (n : Int) j h w 3 32768 32768
          let nhwc ← nhwc_index (n : Int) j h w 3 32768 32768
          let x ← load input_data nchw
          store st nhwc x) = Except.error e → e = .undefined :=
      fun n h w j st => copy_only_undefined input_data _ _
        (nchw_index_only_undefined _ _ _ _ _ _ _) (nhwc_index_only_undefined _ _ _ _ _ _ _) st
    have lc : ∀ (n h w : Nat) (st : List α) (e : Err),
        forLoop 3 (fun c output_data => do
          let nchw ← nchw_index (n : Int) c h w 3 32768 32768
          let nhwc ← nhwc_index (n : Int) c h w 3 32768 32768
          let x ← load input_data nchw
          store output_data nhwc x) st = .error e → e = .undefined :=
      fun n h w => forLoop_only_undefined _ _ (inner n h w)
    have lw : ∀ (n h : Nat) (st : List α) (e : Err),
        forLoop 32768 (fun w => forLoop 3 (fun c output_data => do
          let nchw ← nchw_index (n : Int) c h w 3 32768 32768
          let nhwc ← nhwc_index (n : Int) c h w 3 32768 32768
          let x ← load input_data nchw
          store output_data nhwc x)) st = .error e → e = .undefined :=
      fun n h => forLoop_only_undefined _ _ (lc n h)
    have lh : ∀ (n : Nat) (st : List α) (e : Err),
        forLoop 32768 (fun h => forLoop 32768 (fun w => forLoop 3 (fun c output_data => do
          let nchw ← nchw_index (n : Int) c h w 3 32768 32768
          let nhwc ← nhwc_index (n : Int) c h w 3 32768 32768
          let x ← load input_data nchw
          store output_data nhwc x))) st = .error e → e = .undefined :=
      fun n => forLoop_only_undefined _ _ (lw n)
    refine forLoop_undefined _ _ 0 (by decide) (fun st => ?_) lh _
    refine forLoop_undefined _ _ 0 (by decide) (fun st => ?_) (lw 0) _
    refine forLoop_undefined _ _ 0 (by decide) (fun st => ?_) (lc 0 0) _
    refine forLoop_undefined _ _ 2 (by decide) (fun st => ?_) (inner 0 0 0) _
    have : nchw_index ((0 : Nat) : Int) ((2 : Nat) : Int) ((0 : Nat) : Int) ((0 : Nat) : Int)
        3 32768 32768 = .error .undefined := by decide
    rw [this]; rfl
  · unfold convert_nhwc_to_nchw
    rw [if_neg hdim, htot, if_neg (by simp [hlen]), t1, t3, t4]
    have inner : ∀ (n c h j : Nat) (st : List α) (e : Err),
        (do
          let nhwc ← nhwc_index (n : Int) c h j 3 32768 32768
          let nchw ← nchw_index (n : Int) c h j 3 32768 32768
          let x ← load input_data nhwc
          store st nchw x) = Except.error e → e = .undefined :=
      fun n c h j st => copy_only_undefined input_data _ _
        (nhwc_index_only_undefined _ _ _ _ _ _ _) (nchw_index_only_undefined _ _ _ _ _ _ _) st
    have lw : ∀ (n c h : Nat) (st : List α) (e : Err),
        forLoop 32768 (fun w output_data => do
          let nhwc ← nhwc_index (n : Int) c h w 3 32768 32768
          let nchw ← nchw_index (n : Int) c h w 3 32768 32768
          let x ← load input_data nhwc
          store output_data nchw x) st = .error e → e = .undefined :=
      fun n c h => forLoop_only_undefined _ _ (inner n c h)
    have lh : ∀ (n c : Nat) (st : List α) (e : Err),
        forLoop 32768 (fun h => forLoop 32768 (fun w output_data => do
          let nhwc ← nhwc_index (n : Int) c h w 3 32768 32768
          let nchw ← nchw_index (n : Int) c h w 3 32768 32768
          let x ← load input_data nhwc
          store output_data nchw x)) st = .error e → e = .undefined :=
      fun n c => forLoop_only_undefined _ _ (lw n c)
    have lc : ∀ (n : Nat) (st : List α) (e : Err),
        forLoop 3 (fun c => forLoop 32768 (fun h => forLoop 32768 (fun w output_data => do
          let nhwc ← nhwc_index (n : Int) c h w 3 32768 32768
          let nchw ← nchw_index (n : Int) c h w 3 32768 32768
          let x ← load input_data nhwc
          store output_data nchw x))) st = .error e → e = .undefined :=
      fun n => forLoop_only_undefined _ _ (lh n)
    refine forLoop_undefined _ _ 0 (by decide) (fun st => ?_) lc _
    refine forLoop_undefined _ _ 0 (by decide) (fun st => ?_) (lh 0) _
    refine forLoop_undefined _ _ 21846 (by decide) (fun st => ?_) (lw 0 0) _
    refine forLoop_undefined _ _ 0 (by decide) (fun st => ?_) (inner 0 0 21846) _
    have : nhwc_index ((0 : Nat) : Int) ((0 : Nat) : Int) ((21846 : Nat) : Int) ((0 : Nat) : Int)
        3 32768 32768 = .error .undefined := by decide
    rw [this]; rfl

theorem convert_overflows_int_witness :
    convert_nchw_to_nhwc (List.replicate 3221225472 (0 : Nat)) 1 3 32768 32768
      = .error .undefined ∧
    convert_nhwc_to_nchw (List.replicate 3221225472 (0 : Nat)) 1 3 32768 32768
      = .error .undefined :=
  convert_overflows_int (List.replicate 3221225472 (0 : Nat)) (List.length_replicate _ _)


/-! ### Byte reinterpretation -/

theorem join_objectsOf (size : Nat) :
    ∀ (count : Nat) (mem : List Nat), mem.length = count * size →
      (objectsOf size count mem).flatten = mem := by
  intro count
  induction count with
  | zero =>
    intro mem h
    have : mem = [] := List.length_eq_zero.mp (by simpa using h)
    simp [objectsOf, this]
  | succ n ih =>
    intro mem h
    have hdrop : (mem.drop size).length = n * size := by
      rw [List.length_drop, h, Nat.succ_mul]; omega
    have hshift : objectsOf size (n + 1) mem
        = mem.take size :: objectsOf size n (mem.drop size) := by
      simp only [objectsOf, List.range_succ_eq_map, List.map_cons, List.map_map]
      congr 1
      · simp
      · apply List.map_congr_left
        intro i _
        simp only [Function.comp, List.drop_drop]
        congr 2
        rw [Nat.succ_mul]; omega
    rw [hshift, List.flatten_cons, ih _ hdrop, List.take_append_drop]

theorem length_objectsOf (size count : Nat) (mem : List Nat) :
    (objectsOf size count mem).length = count := by
  simp [objectsOf]

theorem memcpy_whole (src : List Nat) :
    memcpy (List.replicate src.length 0) src src.length = .ok src := by
  simp [memcpy]

/-- C9: `convert_byte_to_type<T>` throws a `runtime_error` if and only if the byte vector
is empty or its length is not a multiple of `sizeof(T)`; otherwise it returns exactly
`bytes.size() / sizeof(T)` elements, element `i` being the bytes
`[i*sizeof(T), (i+1)*sizeof(T))`, so that the elements' bytes concatenated in order are
the input. -/
theorem convert_byte_to_type_spec (sizeofT : Nat) (bytes : List Nat) (_hT : 0 < sizeofT) :
    ((∃ msg, convert_byte_to_type sizeofT bytes = .error (.runtime_error msg)) ↔
      (bytes = [] ∨ bytes.length % sizeofT ≠ 0)) ∧
    (¬ (bytes = [] ∨ bytes.length % sizeofT ≠ 0) →
      ∃ result, convert_byte_to_type sizeofT bytes = .ok result ∧
        result.length = bytes.length / sizeofT ∧
        result.flatten = bytes ∧
        ∀ i, i < bytes.length / sizeofT →
          result[i]? = some ((bytes.drop (i * sizeofT)).take sizeofT)) := by
  have hsucc : ∀ b : List Nat, ¬ (b = [] ∨ b.length % sizeofT ≠ 0) →
      convert_byte_to_type sizeofT b = .ok (objectsOf sizeofT (b.length / sizeofT) b) := by
    intro b hb
    have h1 : b ≠ [] := fun h => hb (Or.inl h)
    have h2 : b.length % sizeofT = 0 := by
      by_contra h; exact hb (Or.inr h)
    have h3 : b.length / sizeofT * sizeofT = b.length :=
      Nat.div_mul_cancel (Nat.dvd_of_mod_eq_zero h2)
    simp [convert_byte_to_type, h1, h2, h3, memcpy_whole]
  constructor
  · constructor
    · rintro ⟨msg, hmsg⟩
      by_contra hb
      rw [hsucc bytes hb] at hmsg
      exact absurd hmsg (by simp)
    · rintro (h | h)
      · exact ⟨"字节流为空", by simp [convert_byte_to_type, h]⟩
      · by_cases he : bytes = []
        · exact ⟨"字节流为空", by simp [convert_byte_to_type, he]⟩
        · exact ⟨"字节数(" ++ toString bytes.length ++ ") 不是类型大小(" ++
            toString sizeofT ++ ") 的整数倍", by simp [convert_byte_to_type, he, h]⟩
  · intro hb
    have h2 : bytes.length % sizeofT = 0 := by
      by_contra h; exact hb (Or.inr h)
    have h3 : bytes.length = bytes.length / sizeofT * sizeofT :=
      (Nat.div_mul_cancel (Nat.dvd_of_mod_eq_zero h2)).symm
    refine ⟨_, hsucc bytes hb, length_objectsOf _ _ _, join_objectsOf _ _ _ h3, ?_⟩
    intro i hi
    simp [objectsOf, List.getElem?_map, List.getElem?_range hi]

theorem convert_byte_to_type_spec_witness :
    ((∃ msg, convert_byte_to_type 2 [1, 2, 3, 4] = .error (.runtime_error msg)) ↔
      (([1, 2, 3, 4] : List Nat) = [] ∨ ([1, 2, 3, 4] : List Nat).length % 2 ≠ 0)) ∧
    (¬ (([1, 2, 3, 4] : List Nat) = [] ∨ ([1, 2, 3, 4] : List Nat).length % 2 ≠ 0) →
      ∃ result, convert_byte_to_type 2 [1, 2, 3, 4] = .ok result ∧
        result.length = ([1, 2, 3, 4] : List Nat).length / 2 ∧
        result.flatten = [1, 2, 3, 4] ∧
        ∀ i, i < ([1, 2, 3, 4] : List Nat).length / 2 →
          result[i]? = some ((([1, 2, 3, 4] : List Nat).drop (i * 2)).take 2)) :=
  convert_byte_to_type_spec 2 [1, 2, 3, 4] (by decide)

/-! ### Similarity metrics -/

/-- C10: each of `calc_mse`, `calc_cosine_sim`, `calc_max_abs_error` and
`calc_max_relative_error` rejects vectors of different lengths with
`invalid_argument("data size mismatch")` before reading any element (no element read is
counted); and for vectors of equal length, empty ones included, `calc_mse` and
`calc_max_abs_error` return a value. -/
theorem metrics_size_check {D : Type} (F : DoubleOps D) (data1 data2 : List D) :
    (data1.length ≠ data2.length →
      calc_mse F data1 data2 = ⟨0, .error (.invalid_argument "data size mismatch")⟩ ∧
      calc_cosine_sim F data1 data2
        = ⟨0, .error (.invalid_argument "data size mismatch")⟩ ∧
      calc_max_abs_error F data1 data2
        = ⟨0, .error (.invalid_argument "data size mismatch")⟩ ∧
      calc_max_relative_error F data1 data2
        = ⟨0, .error (.invalid_argument "data size mismatch")⟩) ∧
    (data1.length = data2.length →
      (∃ v, (calc_mse F data1 data2).outcome = .ok v) ∧
      (∃ v, (calc_max_abs_error F data1 data2).outcome = .ok v)) := by
  constructor
  · intro h
    simp [calc_mse, calc_cosine_sim, calc_max_abs_error, calc_max_relative_error, h]
  · intro h
    simp [calc_mse, calc_max_abs_error, h]

theorem metrics_size_check_witness :
    (calc_mse ieee [1.0] [2.0, 3.0] = ⟨0, .error (.invalid_argument "data size mismatch")⟩ ∧
      calc_cosine_sim ieee [1.0] [2.0, 3.0]
        = ⟨0, .error (.invalid_argument "data size mismatch")⟩ ∧
      calc_max_abs_error ieee [1.0] [2.0, 3.0]
        = ⟨0, .error (.invalid_argument "data size mismatch")⟩ ∧
      calc_max_relative_error ieee [1.0] [2.0, 3.0]
        = ⟨0, .error (.invalid_argument "data size mismatch")⟩) ∧
    ((∃ v, (calc_mse ieee [] []).outcome = .ok v) ∧
      (∃ v, (calc_max_abs_error ieee [] []).outcome = .ok v)) :=
  ⟨(metrics_size_check ieee [1.0] [2.0, 3.0]).1 (by decide),
   (metrics_size_check ieee [] []).2 rfl⟩

/-! #### The loop of `calc_max_relative_error` -/

theorem relative_fold {D : Type} (F : DoubleOps D) (data1 data2 : List D) :
    ∀ (l : List Nat) (m : D) (k : Int), k + (l.length : Int) ≤ INT_MAX →
      l.foldlM (relativeStep F data1 data2) (m, k) =
        .ok ((l.filter (counted F data1)).foldl
              (fun m i => if F.lt m (relativeError F data1 data2 i)
                then relativeError F data1 data2 i else m) m,
             k + ((l.filter (counted F data1)).length : Int)) := by
  intro l
  induction l with
  | nil => intro m k _; simp [pure, Except.pure]
  | cons a l ih =>
    intro m k hk
    have hk' : k + 1 + (l.length : Int) ≤ INT_MAX := by
      simp only [List.length_cons, Nat.cast_add, Nat.cast_one] at hk
      omega
    rw [List.foldlM_cons]
    by_cases hc : counted F data1 a = true
    · have hlt : k < INT_MAX := by
        have : (0 : Int) ≤ (l.length : Int) := Int.natCast_nonneg _
        omega
      have hstep : relativeStep F data1 data2 (m, k) a =
          .ok ((if F.lt m (relativeError F data1 data2 a)
                then relativeError F data1 data2 a else m), k + 1) := by
        have hc' : F.lt F.epsilon (F.abs (elem F data1 a)) = true := hc
        simp [relativeStep, hc', hlt, relativeError]
      rw [hstep]
      show List.foldlM (relativeStep F data1 data2) _ l = _
      rw [ih _ _ hk']
      simp only [List.filter_cons, hc, if_true, List.foldl_cons, List.length_cons,
        Nat.cast_add, Nat.cast_one]
      congr 2
      ring
    · have hc' : F.lt F.epsilon (F.abs (elem F data1 a)) = false := by
        simpa [counted] using hc
      have hstep : relativeStep F data1 data2 (m, k) a = .ok (m, k) := by
        simp [relativeStep, hc']
      rw [hstep]
      show List.foldlM (relativeStep F data1 data2) _ l = _
      have hk2 : k + (l.length : Int) ≤ INT_MAX := by omega
      rw [ih _ _ hk2]
      simp [List.filter_cons, hc]

theorem calc_max_relative_error_outcome {D : Type} (F : DoubleOps D) (data1 data2 : List D)
    (hlen : data1.length = data2.length) (hsz : (data1.length : Int) ≤ INT_MAX) :
    (calc_max_relative_error F data1 data2).outcome =
      if (List.range data1.length).filter (counted F data1) = [] then
        .error (.runtime_error "所有参考值都为零，无法计算相对误差")
      else
        .ok (maxRelativeOver F data1 data2
          ((List.range data1.length).filter (counted F data1))) := by
  have hfold := relative_fold F data1 data2 (List.range data1.length) F.zero 0
    (by simpa using hsz)
  unfold calc_max_relative_error
  rw [if_neg (by simpa using hlen), hfold]
  by_cases he : (List.range data1.length).filter (counted F data1) = []
  · simp [he]
  · have hpos : ((List.range data1.length).filter (counted F data1)).length ≠ 0 := by
      simpa [List.length_eq_zero] using he
    simp only [zero_add, he, if_false]
    rw [if_neg (by exact_mod_cast hpos)]
    rfl

theorem tiny_not_counted : counted rational [1 / 2 ^ 60] 0 = false := by
  have h : ¬ ((1 : ℚ) / 2 ^ 52 < |(1 : ℚ) / 2 ^ 60|) := by
    rw [abs_of_pos (by positivity)]
    norm_num
  simp only [counted, rational, elem, List.getD_cons_zero]
  exact decide_eq_false h

theorem tiny_outcome :
    (calc_max_relative_error rational [1 / 2 ^ 60] [0]).outcome
      = .error (.runtime_error "所有参考值都为零，无法计算相对误差") := by
  rw [calc_max_relative_error_outcome rational [1 / 2 ^ 60] [0] rfl (by decide)]
  have : (List.range ([(1 : ℚ) / 2 ^ 60].length)).filter (counted rational [1 / 2 ^ 60]) = [] := by
    show List.filter (counted rational [1 / 2 ^ 60]) (List.range 1) = []
    rw [show List.range 1 = [0] from rfl, List.filter_cons, tiny_not_counted]
    rfl
  rw [if_pos this]

theorem elem_eq_getElem {D : Type} (F : DoubleOps D) (data : List D) (i : Nat)
    (h : i < data.length) : elem F data i = data[i] := by
  simp [elem, List.getElem?_eq_getElem h]

theorem none_counted_iff {D : Type} (F : DoubleOps D) (data1 : List D) :
    (List.range data1.length).filter (counted F data1) = [] ↔
      ∀ x ∈ data1, F.lt F.epsilon (F.abs x) = false := by
  rw [List.filter_eq_nil_iff]
  constructor
  · intro h x hx
    obtain ⟨i, hi, rfl⟩ := List.getElem_of_mem hx
    have := h i (List.mem_range.mpr hi)
    rw [counted, elem_eq_getElem F data1 i hi] at this
    simpa using this
  · intro h i hi
    have hi' : i < data1.length := List.mem_range.mp hi
    have := h data1[i] (List.getElem_mem hi')
    rw [counted, elem_eq_getElem F data1 i hi', this]
    simp

/-- C11 (as stated, refuted): the reference vector `[2^-60]` has no zero element, yet its
element is not above `epsilon = 2^-52`, so it contributes nothing and the call fails with
the 'all reference values are zero' error. -/
theorem tiny_reference_reported_as_zero :
    ([(1 : ℚ) / 2 ^ 60] : List ℚ).length = ([0] : List ℚ).length ∧
    ¬ (∀ x ∈ ([(1 : ℚ) / 2 ^ 60] : List ℚ), x = 0) ∧
    counted rational [1 / 2 ^ 60] 0 = false ∧
    (calc_max_relative_error rational [1 / 2 ^ 60] [0]).outcome
      = .error (.runtime_error "所有参考值都为零，无法计算相对误差") := by
  refine ⟨rfl, ?_, tiny_not_counted, tiny_outcome⟩
  intro h
  have := h (1 / 2 ^ 60) (List.mem_singleton.mpr rfl)
  norm_num at this

/-- C11 (amended): for vectors of equal length with at most `INT_MAX` elements,
`calc_max_relative_error` fails with the 'all reference values are zero' error if and
only if no element of `data1` has `|data1[i]| > epsilon`; otherwise it returns the
maximum of the relative errors `|data1[i]-data2[i]| / |data1[i]|` taken over exactly the
indices `i` with `|data1[i]| > epsilon`. -/
theorem max_relative_error_epsilon {D : Type} (F : DoubleOps D) (data1 data2 : List D)
    (hlen : data1.length = data2.length) (hsz : (data1.length : Int) ≤ INT_MAX) :
    ((calc_max_relative_error F data1 data2).outcome
        = .error (.runtime_error "所有参考值都为零，无法计算相对误差") ↔
      ∀ x ∈ data1, F.lt F.epsilon (F.abs x) = false) ∧
    ((∃ x ∈ data1, F.lt F.epsilon (F.abs x) = true) →
      (calc_max_relative_error F data1 data2).outcome
        = .ok (maxRelativeOver F data1 data2
            ((List.range data1.length).filter (counted F data1)))) ∧
    (∀ i, i ∈ (List.range data1.length).filter (counted F data1) ↔
      i < data1.length ∧ F.lt F.epsilon (F.abs (elem F data1 i)) = true) := by
  have hout := calc_max_relative_error_outcome F data1 data2 hlen hsz
  have hiff := none_counted_iff F data1
  refine ⟨?_, ?_, ?_⟩
  · constructor
    · intro h
      by_contra hne
      rw [hout, if_neg (fun he => hne (hiff.mp he))] at h
      exact absurd h (by simp)
    · intro h
      rw [hout, if_pos (hiff.mpr h)]
  · rintro ⟨x, hx, hgt⟩
    have hne : ¬ (List.range data1.length).filter (counted F data1) = [] := by
      intro he
      have := hiff.mp he x hx
      rw [this] at hgt
      exact absurd hgt (by simp)
    rw [hout, if_neg hne]
  · intro i
    simp [List.mem_filter, counted]

theorem max_relative_error_epsilon_witness :
    ((calc_max_relative_error rational [1, 2] [1, 3]).outcome
        = .error (.runtime_error "所有参考值都为零，无法计算相对误差") ↔
      ∀ x ∈ ([1, 2] : List ℚ), rational.lt rational.epsilon (rational.abs x) = false) ∧
    ((∃ x ∈ ([1, 2] : List ℚ), rational.lt rational.epsilon (rational.abs x) = true) →
      (calc_max_relative_error rational [1, 2] [1, 3]).outcome
        = .ok (maxRelativeOver rational [1, 2] [1, 3]
            ((List.range ([1, 2] : List ℚ).length).filter (counted rational [1, 2])))) ∧
    (∀ i, i ∈ (List.range ([1, 2] : List ℚ).length).filter (counted rational [1, 2]) ↔
      i < ([1, 2] : List ℚ).length ∧
        rational.lt rational.epsilon (rational.abs (elem rational [1, 2] i)) = true) :=
  max_relative_error_epsilon rational [1, 2] [1, 3] rfl (by decide)

theorem foldlM_error {σ : Type} (f : σ → Nat → Except Err σ) (e : Err) (l : List Nat) :
    (do let st ← (Except.error e : Except Err σ); l.foldlM f st) = .error e := rfl

theorem relative_overflow_aux {D : Type} (F : DoubleOps D) (data1 data2 : List D)
    (K r : Nat) (hK : (K : Int) = INT_MAX) (hr : data1.length = K + 1 + r)
    (hlen : data1.length = data2.length)
    (hall : ∀ x ∈ data1, F.lt F.epsilon (F.abs x) = true) :
    (calc_max_relative_error F data1 data2).outcome = .error .undefined := by
  have hcount : ∀ i, i < data1.length → counted F data1 i = true := by
    intro i hi
    rw [counted, elem_eq_getElem F data1 i hi]
    exact hall _ (List.getElem_mem hi)
  have hsplit : List.range data1.length =
      List.range K ++ ([K] ++ List.map (fun i => K + 1 + i) (List.range r)) := by
    rw [hr, List.range_add, List.range_succ, List.append_assoc]
  have hfilter : (List.range K).filter (counted F data1) = List.range K := by
    rw [List.filter_eq_self]
    intro i hi
    exact hcount i (by have := List.mem_range.mp hi; omega)
  have hfirst := relative_fold F data1 data2 (List.range K) F.zero 0
    (by rw [List.length_range, hK]; omega)
  rw [hfilter, List.length_range, zero_add, hK] at hfirst
  have hstep : ∀ m : D, relativeStep F data1 data2 (m, INT_MAX) K = .error .undefined := by
    intro m
    have hc : F.lt F.epsilon (F.abs (elem F data1 K)) = true := hcount K (by omega)
    simp [relativeStep, hc]
  unfold calc_max_relative_error
  rw [if_neg (by simpa using hlen), hsplit, List.foldlM_append, hfirst]
  simp only [bind, Except.bind, List.foldlM_append, List.foldlM_cons, List.foldlM_nil, hstep]

/-- Beyond `INT_MAX` counted elements the counter overflows: when every element of
`data1` is above `epsilon` and there are more than `INT_MAX` of them, `validCount++` is
evaluated on `INT_MAX`, which is undefined. -/
theorem max_relative_error_overflow {D : Type} (F : DoubleOps D) (data1 data2 : List D)
    (hlen : data1.length = data2.length)
    (hall : ∀ x ∈ data1, F.lt F.epsilon (F.abs x) = true)
    (hbig : INT_MAX < (data1.length : Int)) :
    (calc_max_relative_error F data1 data2).outcome = .error .undefined := by
  obtain ⟨K, hK⟩ : ∃ K : Nat, (K : Int) = INT_MAX := ⟨INT_MAX.toNat, by decide⟩
  have h1 : K + 1 ≤ data1.length := by
    have : (K : Int) < (data1.length : Int) := hK ▸ hbig
    omega
  exact relative_overflow_aux F data1 data2 K (data1.length - (K + 1)) hK (by omega) hlen hall

theorem max_relative_error_overflow_witness :
    (calc_max_relative_error rational (List.replicate 2147483648 1)
      (List.replicate 2147483648 1)).outcome = .error .undefined :=
  max_relative_error_overflow rational (List.replicate 2147483648 1)
    (List.replicate 2147483648 1) rfl
    (by
      intro x hx
      rw [List.eq_of_mem_replicate hx]
      have h : (1 : ℚ) / 2 ^ 52 < |(1 : ℚ)| := by
        rw [abs_one]; norm_num
      exact decide_eq_true h)
    (by
      rw [List.length_replicate]
      decide)

/-! ### Model identifiers -/

/-- C12: the model numbers documented for `init` (1 minicpm, 2 deepseek, 3 phi4,
4 minicpmv1b, 5 qwen, 6 paligemma2) are the values of `MINICPM`, `DEEPSEEK`, `PHI4`,
`MINICPMV1B`, `QWEN` and `PALIGEMMA`; `FIRST_CNN_MODEL` is 1000, every CNN enumerator
(`RESNET50`, `REPVGG`, `YOLOV8S`) has a value of at least `FIRST_CNN_MODEL` and every
language-model enumerator a smaller one, the two groups being all model enumerators; and
`model_files` has an entry for exactly the CNN enumerators. -/
theorem model_identifiers :
    documentedModels =
      [(ModelType.MINICPM.toInt, "minicpm"), (ModelType.DEEPSEEK.toInt, "deepseek"),
       (ModelType.PHI4.toInt, "phi4"), (ModelType.MINICPMV1B.toInt, "minicpmv1b"),
       (ModelType.QWEN.toInt, "qwen"), (ModelType.PALIGEMMA.toInt, "paligemma2")] ∧
    FIRST_CNN_MODEL = 1000 ∧
    (∀ m ∈ cnnModels, FIRST_CNN_MODEL ≤ m.toInt) ∧
    (∀ m ∈ languageModels, m.toInt < FIRST_CNN_MODEL) ∧
    (∀ m : ModelType, (m ∈ cnnModels ∨ m ∈ languageModels) ∧
      ¬ (m ∈ cnnModels ∧ m ∈ languageModels)) ∧
    (∀ m : ModelType, (model_files.lookup m.toInt).isSome = true ↔ m ∈ cnnModels) ∧
    model_files.map Prod.fst = cnnModels.map ModelType.toInt := by
  refine ⟨by decide, by decide, by decide, by decide, ?_, ?_, by decide⟩
  · intro m
    cases m <;> decide
  · intro m
    cases m <;> decide

end PbnnModelZoo
